import Mathlib

/-!
# Verification of the YouTube batch-transcription pipeline

Shallow embedding of the repository (`run-transcription-in-server.py`,
`youtube_whisper_transcript.py`) and proofs of the specification claims.

The embedding models:
* the file system as an association list of `(path, content)` pairs
  (`FS`); `os.path.exists` becomes a key-membership check;
* the external collaborators (yt-dlp download, Whisper model load +
  inference, YouTube Data API) as oracles, i.e. explicit function
  parameters returning either a normal result or an exception value
  (Python `try`/`except` becomes a `match` on the oracle outcome);
* Python string operations (`str.strip`, `str.lower`, `str.endswith`,
  `int(...)`, line splitting) as structurally recursive functions on
  `String.data`, so that all definitions evaluate inside the kernel.

Ghost instrumentation (invocation counters, per-item trace records,
caught-failure records) is threaded through the definitions so that
claims about "zero invocations" or "a failure record carrying the
identifier and message" are directly statable; each such counter
increments exactly when the corresponding source-code block runs.
-/

/-! ## Python string-operation models -/

/-- Characters treated as whitespace by Python `str.strip()` (ASCII range,
which covers the identifier files handled by this program). -/
def pyIsSpace (c : Char) : Bool :=
  c == ' ' || c == '\t' || c == '\n' || c == '\r' || c == '\x0b' || c == '\x0c'

/-- `str.strip()` on the character list: drop leading and trailing whitespace. -/
def pyStripChars (l : List Char) : List Char :=
  ((l.dropWhile pyIsSpace).reverse.dropWhile pyIsSpace).reverse

/-- Python `s.strip()`. -/
def pyStrip (s : String) : String := String.mk (pyStripChars s.data)

/-- ASCII lower-casing of a single character, as Python `str.lower()` does
for the ASCII file names this program handles. -/
def pyLowerChar (c : Char) : Char :=
  if c == 'A' then 'a' else if c == 'B' then 'b' else if c == 'C' then 'c'
  else if c == 'D' then 'd' else if c == 'E' then 'e' else if c == 'F' then 'f'
  else if c == 'G' then 'g' else if c == 'H' then 'h' else if c == 'I' then 'i'
  else if c == 'J' then 'j' else if c == 'K' then 'k' else if c == 'L' then 'l'
  else if c == 'M' then 'm' else if c == 'N' then 'n' else if c == 'O' then 'o'
  else if c == 'P' then 'p' else if c == 'Q' then 'q' else if c == 'R' then 'r'
  else if c == 'S' then 's' else if c == 'T' then 't' else if c == 'U' then 'u'
  else if c == 'V' then 'v' else if c == 'W' then 'w' else if c == 'X' then 'x'
  else if c == 'Y' then 'y' else if c == 'Z' then 'z' else c

/-- Python `s.lower()`. -/
def pyLower (s : String) : String := String.mk (s.data.map pyLowerChar)

/-- Suffix test on character lists. -/
def listEndsWith (l suffix : List Char) : Bool :=
  l.drop (l.length - suffix.length) == suffix

/-- Python `s.endswith(suffix)`. -/
def pyEndsWith (s suffix : String) : Bool := listEndsWith s.data suffix.data

/-- Value of a decimal digit character. -/
def digitVal (c : Char) : Option Nat :=
  if c == '0' then some 0 else if c == '1' then some 1 else if c == '2' then some 2
  else if c == '3' then some 3 else if c == '4' then some 4 else if c == '5' then some 5
  else if c == '6' then some 6 else if c == '7' then some 7 else if c == '8' then some 8
  else if c == '9' then some 9 else none

/-- Value of a nonempty all-digit character list, `none` otherwise. -/
def digitsVal : List Char → Option Nat
  | [] => none
  | [c] => digitVal c
  | c :: rest => do
    let d ← digitVal c
    let r ← digitsVal rest
    pure (d * (10 ^ rest.length) + r)

/-- Python `int(s)` on an already-stripped string (optional sign followed by
digits); `none` models a raised `ValueError`. -/
def pyInt (s : String) : Option Int :=
  match s.data with
  | '-' :: rest => (digitsVal rest).map (fun n => -(n : Int))
  | '+' :: rest => (digitsVal rest).map (fun n => (n : Int))
  | l => (digitsVal l).map (fun n => (n : Int))

/-- Splitting a character list at newline characters, as iterating over the
lines of an open Python file does (modulo the kept `\n`, which the
subsequent `strip()` removes). -/
def splitLinesChars : List Char → List (List Char)
  | [] => [[]]
  | c :: rest =>
    let r := splitLinesChars rest
    if c = '\n' then [] :: r
    else
      match r with
      | [] => [[c]]
      | l :: ls => (c :: l) :: ls

/-- Python truthiness of an optional string: `None` and `""` are falsy. -/
def pyTruthy : Option String → Bool
  | none => false
  | some s => s ≠ ""

/-- Python `a or b` on optional strings. -/
def pyOr (a b : Option String) : Option String :=
  if pyTruthy a then a else b

/-! ## File-system model -/

/-- The file system: an association list of `(path, contents)` pairs.
New files are consed/prepended at the front, so an earlier state is always
a suffix of a later one. -/
abbrev FS := List (String × String)

/-- `os.path.exists`: is there a file at path `p`? -/
def fsExists (fs : FS) (p : String) : Bool := fs.any (fun e => e.1 == p)

/-- Contents of the file at `p` (empty if absent; only used after an
existence check). -/
def fsRead (fs : FS) (p : String) : String :=
  ((fs.find? (fun e => e.1 == p)).map (fun e => e.2)).getD ""

/-- `os.path.join(dir, name)` for the plain relative names this program
builds. -/
def pathJoin (dir name : String) : String := dir ++ "/" ++ name

/-- The deterministic audio-artifact path `{output_path}/{video_id}.mp3`
(line 87 of `run-transcription-in-server.py`). -/
def audioFilePath (output_path video_id : String) : String :=
  pathJoin output_path (video_id ++ ".mp3")

/-- The deterministic transcript path
`{output_path}/{video_id}_transcription.txt` (line 110). -/
def transcriptFilePath (output_path video_id : String) : String :=
  pathJoin output_path (video_id ++ "_transcription.txt")

/-! ## External collaborators as oracles -/

/-- Outcome of one `ydl.download([url])` call: either it terminates
normally having materialized `created` files on disk, or it raises an
exception with a message. -/
inductive DlOutcome where
  | ok (created : FS)
  | exc (msg : String)

/-- One timed text segment returned by the inference engine
(`result["segments"]`). Only `text` is ever read by this program. -/
structure TranscriptSegment where
  start : ℚ
  stop : ℚ
  text : String
  deriving DecidableEq

/-- Outcome of the Whisper block (`whisper.load_model` followed by
`model.transcribe`): either an ordered segment list or a raised
exception. -/
inductive EngineOutcome where
  | ok (segments : List TranscriptSegment)
  | exc (msg : String)

/-- The caught download failure: the `except` branch of
`download_youtube_audio` logs the identifier and the underlying message
(line 105). -/
structure AcquisitionFailure where
  videoId : String
  message : String
  deriving DecidableEq

/-- The caught transcription failure: the `except` branch of
`transcribe_audio_and_save_to_txt` logs the identifier and the underlying
message (line 135). -/
structure TranscriptionFailure where
  videoId : String
  message : String
  deriving DecidableEq

/-! ## Audio Acquisition: `download_youtube_audio` (lines 84-106) -/

/-- Result of one `download_youtube_audio` call, instrumented with the
resulting file system, the number of invocations of the external
download mechanism, and the caught failure (if any). -/
structure AcqResult where
  result : Option String
  fs : FS
  dlInvocations : Nat
  failure : Option AcquisitionFailure
  deriving DecidableEq

/-- `download_youtube_audio(video_id, output_path)`.

Computes the deterministic path; if a file exists there it is returned
immediately (`os.path.exists` check, lines 88-90) without consulting the
download oracle `dl`.  On a cache miss, `ydl.download` runs: normal
termination adds whatever files the external tool materialized and
returns the pre-computed path (line 103) — without re-checking that the
file now exists; an exception is caught and converted into `result =
none` plus an `AcquisitionFailure` record (lines 104-106). -/
def download_youtube_audio (dl : String → DlOutcome) (video_id : String)
    (output_path : String) (fs : FS) : AcqResult :=
  let audio_file_path := audioFilePath output_path video_id
  if fsExists fs audio_file_path then
    { result := some audio_file_path, fs := fs, dlInvocations := 0, failure := none }
  else
    match dl video_id with
    | .ok created =>
        { result := some audio_file_path, fs := created ++ fs,
          dlInvocations := 1, failure := none }
    | .exc msg =>
        { result := none, fs := fs, dlInvocations := 1,
          failure := some ⟨video_id, msg⟩ }

/-! ## Transcription: `transcribe_audio_and_save_to_txt` (lines 108-136) -/

/-- Result of one `transcribe_audio_and_save_to_txt` call, instrumented
like `AcqResult`; `engInvocations` counts executions of the block from
device selection through `whisper.load_model` and `model.transcribe`. -/
structure TrResult where
  result : Option String
  fs : FS
  engInvocations : Nat
  failure : Option TranscriptionFailure
  deriving DecidableEq

/-- The `device` string chosen at lines 114-120. -/
def deviceOf (cudaAvailable : Bool) (gpu_id : Nat) : String :=
  if cudaAvailable then "cuda:" ++ toString gpu_id else "cpu"

/-- The transcript file contents written at lines 129-131: one
`file.write(f"{segment['text']}\n")` per segment, in segment order. -/
def transcriptContent : List TranscriptSegment → String
  | [] => ""
  | seg :: rest => seg.text ++ "\n" ++ transcriptContent rest

/-- `transcribe_audio_and_save_to_txt(audio_file, video_id, language_code,
output_path, auto_detect_language, gpu_id)`.

Computes the deterministic transcript path; if a file exists there it is
returned immediately (lines 111-113), before the CUDA check, the model
load, and the inference — the oracle `eng` and the flag `cudaAvailable`
are never consulted in that branch.  Otherwise the engine runs on
`(device, audio_file, language)` where `language = none` both in
auto-detect mode (the `model.transcribe(audio_file)` call, line 125) and
when `language_code` is `None`: on success the segment texts are written
one line each, UTF-8, to the transcript path (lines 129-131); an
exception anywhere in the block is caught and converted into `result =
none` plus a `TranscriptionFailure` record (lines 134-136). -/
def transcribe_audio_and_save_to_txt (eng : String → String → Option String → EngineOutcome)
    (cudaAvailable : Bool) (audio_file video_id : String) (language_code : Option String)
    (output_path : String) (auto_detect_language : Bool) (gpu_id : Nat) (fs : FS) : TrResult :=
  let transcript_file_path := transcriptFilePath output_path video_id
  if fsExists fs transcript_file_path then
    { result := some transcript_file_path, fs := fs, engInvocations := 0, failure := none }
  else
    let device := deviceOf cudaAvailable gpu_id
    let language := if auto_detect_language then none else language_code
    match eng device audio_file language with
    | .ok segments =>
        { result := some transcript_file_path,
          fs := (transcript_file_path, transcriptContent segments) :: fs,
          engInvocations := 1, failure := none }
    | .exc msg =>
        { result := none, fs := fs, engInvocations := 1,
          failure := some ⟨video_id, msg⟩ }

/-! ## Batch Orchestrator: the per-video loop of `main` (lines 211-226) -/

/-- The fixed configuration threaded through the loop: the two oracles,
CUDA availability, and the argument values `main` computed before the
loop. -/
structure PipelineConfig where
  dl : String → DlOutcome
  eng : String → String → Option String → EngineOutcome
  cudaAvailable : Bool
  output_path : String
  language_code : Option String
  auto_detect_language : Bool
  gpu_id : Nat

/-- How one loop iteration ended: `done` with the retained transcript
path, or a failure at acquisition or at transcription. -/
inductive ItemOutcome where
  | done (transcript_file : String)
  | acqFailed
  | trFailed
  deriving DecidableEq

/-- Ghost trace record for one loop iteration. -/
structure ItemRecord where
  videoId : String
  outcome : ItemOutcome
  dlInvocations : Nat
  engInvocations : Nat
  deriving DecidableEq

/-- One iteration of the `for idx, video_id in enumerate(video_ids)` loop
body (lines 213-225): run acquisition; a falsy result raises, caught by
the per-item `except`, yielding `acqFailed`; otherwise run transcription
on the acquired path; a `None` result likewise yields `trFailed`;
otherwise the item is done with the transcript path retained. -/
def processVideo (cfg : PipelineConfig) (fs : FS) (video_id : String) : ItemRecord × FS :=
  let acq := download_youtube_audio cfg.dl video_id cfg.output_path fs
  match acq.result with
  | none => (⟨video_id, .acqFailed, acq.dlInvocations, 0⟩, acq.fs)
  | some audio_file =>
    let tr := transcribe_audio_and_save_to_txt cfg.eng cfg.cudaAvailable audio_file
      video_id cfg.language_code cfg.output_path cfg.auto_detect_language cfg.gpu_id acq.fs
    match tr.result with
    | none => (⟨video_id, .trFailed, acq.dlInvocations, tr.engInvocations⟩, tr.fs)
    | some transcript_file =>
        (⟨video_id, .done transcript_file, acq.dlInvocations, tr.engInvocations⟩, tr.fs)

/-- Result of the whole loop: final file system, the ghost per-item
trace, and the `failed_videos` list exactly as the source accumulates it
(appended in the order failures occur). -/
structure RunResult where
  fs : FS
  trace : List ItemRecord
  failed : List String
  deriving DecidableEq

/-- The orchestrator loop over the work list, in list order. -/
def runBatch (cfg : PipelineConfig) : List String → FS → RunResult
  | [], fs => ⟨fs, [], []⟩
  | video_id :: rest, fs =>
    let step := processVideo cfg fs video_id
    let r := runBatch cfg rest step.2
    ⟨r.fs, step.1 :: r.trace,
      (match step.1.outcome with
        | .done _ => []
        | _ => [video_id]) ++ r.failed⟩

/-- The line printed after the loop (line 226): its only varying datum is
the `failed_videos` list. -/
def finalSummary (r : RunResult) : String :=
  "Processing complete! Failed videos: " ++ toString r.failed

/-- Identifiers whose iteration reached `done`, in processing order. -/
def doneIds (r : RunResult) : List String :=
  r.trace.filterMap (fun it =>
    match it.outcome with
    | .done _ => some it.videoId
    | _ => none)

/-- Total invocations of the external download mechanism during a run. -/
def totalDl (r : RunResult) : Nat := (r.trace.map (fun it => it.dlInvocations)).sum

/-- Total invocations of the inference engine during a run. -/
def totalEng (r : RunResult) : Nat := (r.trace.map (fun it => it.engInvocations)).sum

/-! ### Sanity examples (concrete evaluation of the embedding) -/

/-- A download oracle that fails exactly on `"id2"` and otherwise
materializes the deterministic audio file under `"out"`. -/
def exDl : String → DlOutcome := fun id =>
  if id = "id2" then .exc "network error"
  else .ok [(audioFilePath "out" id, "audio-bytes")]

/-- An engine oracle that always succeeds with one segment. -/
def exEng : String → String → Option String → EngineOutcome :=
  fun _ _ _ => .ok [⟨0, 1, "hello"⟩]

/-- Concrete configuration used by the closed example theorems. -/
def exCfg : PipelineConfig :=
  { dl := exDl, eng := exEng, cudaAvailable := false, output_path := "out",
    language_code := some "hi", auto_detect_language := false, gpu_id := 0 }

example :
    (runBatch exCfg ["id1", "id2", "id3"] []).failed = ["id2"] := by decide

example :
    (runBatch exCfg ["id1", "id2", "id3"] []).trace.map ItemRecord.outcome =
      [.done "out/id1_transcription.txt", .acqFailed, .done "out/id3_transcription.txt"] := by
  decide

/-! ## Metadata Fetcher: `get_video_info` (lines 52-73) -/

/-- One entry built from a YouTube Data API response item (lines 63-70). -/
structure VideoInfo where
  id : String
  title : String
  publishedAt : String
  duration : String
  deriving DecidableEq

/-- Outcome of one batched `youtube.videos().list(...).execute()` request:
the returned items, or a raised exception. -/
inductive ApiOutcome where
  | ok (items : List VideoInfo)
  | exc (msg : String)

/-- Fuelled worker for `get_video_info`. -/
def get_video_info_go (api : List String → ApiOutcome) :
    Nat → List String → List VideoInfo × Nat
  | _, [] => ([], 0)
  | 0, _ :: _ => ([], 0)
  | fuel + 1, x :: xs =>
    let chunk := (x :: xs).take 50
    let restRes := get_video_info_go api fuel ((x :: xs).drop 50)
    match api chunk with
    | .ok items => (items ++ restRes.1, restRes.2 + 1)
    | .exc _ => (restRes.1, restRes.2 + 1)

/-- `get_video_info(video_ids, api_key)`: walk the identifier list in
consecutive chunks of at most 50 (`range(0, len(video_ids), 50)` with
slice `video_ids[i:i+50]`), issue one batched request per chunk, append
the items of every successful response, and catch (log-and-continue) the
exception of any failed chunk.  Returns the accumulated entry list and
the ghost count of requests issued.  (The fuel argument of the worker is
`video_ids.length`, which always suffices since every round consumes at
least one identifier; it only makes the recursion structural.) -/
def get_video_info (api : List String → ApiOutcome) (video_ids : List String) :
    List VideoInfo × Nat :=
  get_video_info_go api video_ids.length video_ids

/-- Fuelled worker for `chunks50`. -/
def chunks50_go : Nat → List String → List (List String)
  | _, [] => []
  | 0, _ :: _ => []
  | fuel + 1, x :: xs => (x :: xs).take 50 :: chunks50_go fuel ((x :: xs).drop 50)

/-- The chunk decomposition `get_video_info` walks: consecutive slices of
at most 50 identifiers. -/
def chunks50 (video_ids : List String) : List (List String) :=
  chunks50_go video_ids.length video_ids

/-! ## Language selection (lines 40-50 and 170-199) -/

/-- `get_language_code` (lines 40-50): the enumerated language map;
`language_map.get(selected_language, None)`. -/
def get_language_code (selected_language : String) : Option String :=
  if selected_language = "Kannada" then some "kn"
  else if selected_language = "Hindi" then some "hi"
  else if selected_language = "Tamil" then some "ta"
  else if selected_language = "Marathi" then some "mr"
  else if selected_language = "Gujarati" then some "gu"
  else if selected_language = "Punjabi" then some "pa"
  else if selected_language = "Bengali" then some "bn"
  else none

/-- The `languages` list of `main` (line 173), which is also the argparse
`choices` list for `--language` (lines 146-148). -/
def languages : List String :=
  ["Auto-detect language", "Kannada", "Hindi", "Tamil", "Marathi",
   "Gujarati", "Punjabi", "Bengali"]

/-- The language `main` settles on (lines 171-191): the `--language`
argument if given; otherwise the interactive menu choice `promptChoice`,
parsed as an integer index into `languages`, defaulting to `"Hindi"` on
blank, unparsable, or out-of-range input. -/
def selectLanguage (argLanguage : Option String) (promptChoice : String) : String :=
  match argLanguage with
  | some l => l
  | none =>
    let choice := pyStrip promptChoice
    if choice = "" then "Hindi"
    else
      match pyInt choice with
      | none => "Hindi"
      | some idx =>
        if 1 ≤ idx ∧ idx ≤ (languages.length : Int) then
          (languages.drop (idx - 1).toNat).headD "Hindi"
        else "Hindi"

/-- Lines 192-199: the `(auto_detect_language, language_code)` pair `main`
constructs from the selected language and then passes to every
`transcribe_audio_and_save_to_txt` call. -/
def languageMode (language : String) : Bool × Option String :=
  if language = "Auto-detect language" then (true, none)
  else (false, get_language_code language)

/-- Lines 211-227 of `youtube_whisper_transcript.py`: the Streamlit entry
constructs the same pair from the auto-detect checkbox and (when the
checkbox is off) a language selected from the seven-element select box. -/
def streamlitLanguageSettings (auto_detect_language : Bool) (selected_language : String) :
    Bool × Option String :=
  if auto_detect_language then (true, none)
  else (false, get_language_code selected_language)

example : languageMode (selectLanguage none "  ") = (false, some "hi") := by decide

example : languageMode (selectLanguage none "1") = (true, none) := by decide

example : languageMode (selectLanguage (some "Tamil") "") = (false, some "ta") := by decide

/-! ## Entry shell: `main` (lines 138-226) -/

/-- `read_video_ids_from_file` (lines 75-82): one identifier per line,
stripped, blank lines discarded. -/
def read_video_ids_from_file (contents : String) : List String :=
  ((splitLinesChars contents.data).map pyStripChars).filterMap
    (fun l => if l = [] then none else some (String.mk l))

/-- The command-line arguments of `main` after the interactive
input-file prompt (which loops until a nonempty path is entered). -/
structure Args where
  video_ids_file : String
  api_key : Option String
  output_path : String
  language : Option String
  gpu_id : Nat

/-- The ambient world `main` runs in: the three oracles, CUDA
availability, the `YT_API_KEY` environment value, the interactive
language-menu input, and the initial file system. -/
structure World where
  api : List String → ApiOutcome
  dl : String → DlOutcome
  eng : String → String → Option String → EngineOutcome
  cudaAvailable : Bool
  envApiKey : Option String
  promptChoice : String
  fs : FS

/-- Observable result of one `main` invocation: the process exit code,
the pre-flight error message (if any), the final file system, the
invocation counts of the external collaborators, and the reported
failed-video list. -/
structure MainResult where
  exitCode : Nat
  errorMsg : Option String
  fs : FS
  dlInvocations : Nat
  engInvocations : Nat
  metadataRequests : Nat
  failed : List String
  deriving Inhabited

/-- `main` (lines 138-226): pre-flight checks in source order — the
`.txt`-extension check (lines 157-159), the input-file existence check
(lines 160-162), the credential resolution `args.api_key or
os.getenv("YT_API_KEY")` with its truthiness check (lines 164-168) — then
language selection, identifier reading (empty list also exits non-zero,
lines 201-204), the best-effort metadata fetch, and the orchestrator
loop; the process ends with status 0 regardless of per-item failures. -/
def mainRun (w : World) (args : Args) : MainResult :=
  if ¬ pyEndsWith (pyLower args.video_ids_file) ".txt" then
    { exitCode := 1, errorMsg := some "Error: --video_ids_file must be a .txt file",
      fs := w.fs, dlInvocations := 0, engInvocations := 0, metadataRequests := 0,
      failed := [] }
  else if ¬ fsExists w.fs args.video_ids_file then
    { exitCode := 1, errorMsg := some ("File not found: " ++ args.video_ids_file),
      fs := w.fs, dlInvocations := 0, engInvocations := 0, metadataRequests := 0,
      failed := [] }
  else
    let api_key := pyOr args.api_key w.envApiKey
    if ¬ pyTruthy api_key then
      { exitCode := 1,
        errorMsg := some "YouTube Data API Key is required (set --api_key or YT_API_KEY in .env)",
        fs := w.fs, dlInvocations := 0, engInvocations := 0, metadataRequests := 0,
        failed := [] }
    else
      let language := selectLanguage args.language w.promptChoice
      let mode := languageMode language
      let video_ids := read_video_ids_from_file (fsRead w.fs args.video_ids_file)
      if video_ids.isEmpty then
        { exitCode := 1, errorMsg := some "No video IDs found in the file or file is empty.",
          fs := w.fs, dlInvocations := 0, engInvocations := 0, metadataRequests := 0,
          failed := [] }
      else
        let info := get_video_info w.api video_ids
        let cfg : PipelineConfig :=
          { dl := w.dl, eng := w.eng, cudaAvailable := w.cudaAvailable,
            output_path := args.output_path, language_code := mode.2,
            auto_detect_language := mode.1, gpu_id := args.gpu_id }
        let r := runBatch cfg video_ids w.fs
        { exitCode := 0, errorMsg := none, fs := r.fs,
          dlInvocations := totalDl r, engInvocations := totalEng r,
          metadataRequests := info.2, failed := r.failed }

/-- A concrete world for the closed example theorems: the ids file holds
`id1`, `id2`, `id3` (with a blank line), the oracles are `exDl`/`exEng`. -/
def exWorld : World :=
  { api := fun c => .ok (c.map (fun i => ⟨i, "t", "p", "d"⟩)),
    dl := exDl, eng := exEng, cudaAvailable := false,
    envApiKey := some "ENVKEY", promptChoice := "",
    fs := [("ids.txt", "id1\nid2\n\nid3\n")] }

/-- Concrete arguments matching `exWorld`. -/
def exArgs : Args :=
  { video_ids_file := "ids.txt", api_key := none, output_path := "out",
    language := some "Hindi", gpu_id := 0 }

example : (mainRun exWorld exArgs).exitCode = 0 := by decide

example : (mainRun exWorld exArgs).failed = ["id2"] := by decide

example : (mainRun exWorld { exArgs with video_ids_file := "ids.csv" }).exitCode = 1 := by
  decide

/-! ## Unfolding lemmas for the two pipeline steps -/

theorem download_hit (dl : String → DlOutcome) (video_id output_path : String) (fs : FS)
    (h : fsExists fs (audioFilePath output_path video_id) = true) :
    download_youtube_audio dl video_id output_path fs =
      { result := some (audioFilePath output_path video_id), fs := fs,
        dlInvocations := 0, failure := none } := by
  simp [download_youtube_audio, h]

theorem download_miss_ok (dl : String → DlOutcome) (video_id output_path : String) (fs : FS)
    (created : FS) (h : fsExists fs (audioFilePath output_path video_id) = false)
    (hdl : dl video_id = .ok created) :
    download_youtube_audio dl video_id output_path fs =
      { result := some (audioFilePath output_path video_id), fs := created ++ fs,
        dlInvocations := 1, failure := none } := by
  simp [download_youtube_audio, h, hdl]

theorem download_miss_exc (dl : String → DlOutcome) (video_id output_path : String) (fs : FS)
    (msg : String) (h : fsExists fs (audioFilePath output_path video_id) = false)
    (hdl : dl video_id = .exc msg) :
    download_youtube_audio dl video_id output_path fs =
      { result := none, fs := fs, dlInvocations := 1, failure := some ⟨video_id, msg⟩ } := by
  simp [download_youtube_audio, h, hdl]

theorem transcribe_hit (eng : String → String → Option String → EngineOutcome)
    (cudaAvailable : Bool) (audio_file video_id : String) (language_code : Option String)
    (output_path : String) (auto_detect_language : Bool) (gpu_id : Nat) (fs : FS)
    (h : fsExists fs (transcriptFilePath output_path video_id) = true) :
    transcribe_audio_and_save_to_txt eng cudaAvailable audio_file video_id language_code
        output_path auto_detect_language gpu_id fs =
      { result := some (transcriptFilePath output_path video_id), fs := fs,
        engInvocations := 0, failure := none } := by
  simp [transcribe_audio_and_save_to_txt, h]

theorem transcribe_miss_ok (eng : String → String → Option String → EngineOutcome)
    (cudaAvailable : Bool) (audio_file video_id : String) (language_code : Option String)
    (output_path : String) (auto_detect_language : Bool) (gpu_id : Nat) (fs : FS)
    (segments : List TranscriptSegment)
    (h : fsExists fs (transcriptFilePath output_path video_id) = false)
    (heng : eng (deviceOf cudaAvailable gpu_id) audio_file
        (if auto_detect_language then none else language_code) = .ok segments) :
    transcribe_audio_and_save_to_txt eng cudaAvailable audio_file video_id language_code
        output_path auto_detect_language gpu_id fs =
      { result := some (transcriptFilePath output_path video_id),
        fs := (transcriptFilePath output_path video_id, transcriptContent segments) :: fs,
        engInvocations := 1, failure := none } := by
  simp [transcribe_audio_and_save_to_txt, h, heng]

theorem transcribe_miss_exc (eng : String → String → Option String → EngineOutcome)
    (cudaAvailable : Bool) (audio_file video_id : String) (language_code : Option String)
    (output_path : String) (auto_detect_language : Bool) (gpu_id : Nat) (fs : FS)
    (msg : String)
    (h : fsExists fs (transcriptFilePath output_path video_id) = false)
    (heng : eng (deviceOf cudaAvailable gpu_id) audio_file
        (if auto_detect_language then none else language_code) = .exc msg) :
    transcribe_audio_and_save_to_txt eng cudaAvailable audio_file video_id language_code
        output_path auto_detect_language gpu_id fs =
      { result := none, fs := fs, engInvocations := 1, failure := some ⟨video_id, msg⟩ } := by
  simp [transcribe_audio_and_save_to_txt, h, heng]

/-! ## Claim C2: idempotency short-circuit of both steps -/

/-- C2.  Idempotency short-circuit of both pipeline steps: if a file
already exists at the deterministic audio path `{identifier}.mp3`,
Acquisition returns that path at once with the file system unchanged,
zero invocations of the external download mechanism, and no failure —
for every download oracle and every content of the existing file
(existence-only check, no integrity validation); likewise, if a file
already exists at the deterministic transcript path
`{identifier}_transcription.txt`, Transcription returns that path at once
with zero engine invocations, for every engine oracle and every CUDA
availability (the check precedes device selection and model load). -/
theorem C2_idempotency_short_circuit :
    (∀ (dl : String → DlOutcome) (video_id output_path : String) (fs : FS),
      fsExists fs (audioFilePath output_path video_id) = true →
      download_youtube_audio dl video_id output_path fs =
        { result := some (audioFilePath output_path video_id), fs := fs,
          dlInvocations := 0, failure := none }) ∧
    (∀ (eng : String → String → Option String → EngineOutcome) (cudaAvailable : Bool)
      (audio_file video_id : String) (language_code : Option String) (output_path : String)
      (auto_detect_language : Bool) (gpu_id : Nat) (fs : FS),
      fsExists fs (transcriptFilePath output_path video_id) = true →
      transcribe_audio_and_save_to_txt eng cudaAvailable audio_file video_id language_code
          output_path auto_detect_language gpu_id fs =
        { result := some (transcriptFilePath output_path video_id), fs := fs,
          engInvocations := 0, failure := none }) :=
  ⟨download_hit, transcribe_hit⟩

/-- Witness for C2 at concrete inputs: a pre-existing (possibly stale)
audio file and a pre-existing transcript both short-circuit. -/
theorem C2_idempotency_short_circuit_witness :
    download_youtube_audio exDl "id1" "out" [(audioFilePath "out" "id1", "stale-bytes")] =
      { result := some (audioFilePath "out" "id1"),
        fs := [(audioFilePath "out" "id1", "stale-bytes")],
        dlInvocations := 0, failure := none } ∧
    transcribe_audio_and_save_to_txt exEng true "out/id1.mp3" "id1" (some "hi") "out" false 3
        [(transcriptFilePath "out" "id1", "old")] =
      { result := some (transcriptFilePath "out" "id1"),
        fs := [(transcriptFilePath "out" "id1", "old")],
        engInvocations := 0, failure := none } :=
  ⟨C2_idempotency_short_circuit.1 exDl "id1" "out" _ (by decide),
   C2_idempotency_short_circuit.2 exEng true "out/id1.mp3" "id1" (some "hi") "out" false 3 _
     (by decide)⟩

/-! ## Claim C4: exception containment of both steps -/

/-- C4.  Exception containment: on a cache miss, any exception raised by
the external download mechanism is caught and converted into a `none`
result together with an `AcquisitionFailure` carrying the identifier and
the underlying message — the (total) function returns normally instead of
propagating; likewise any exception of the device-selection / model-load
/ inference block is caught and converted into a
`TranscriptionFailure (identifier, message)`. -/
theorem C4_exception_containment :
    (∀ (dl : String → DlOutcome) (video_id output_path : String) (fs : FS) (msg : String),
      fsExists fs (audioFilePath output_path video_id) = false →
      dl video_id = .exc msg →
      download_youtube_audio dl video_id output_path fs =
        { result := none, fs := fs, dlInvocations := 1,
          failure := some ⟨video_id, msg⟩ }) ∧
    (∀ (eng : String → String → Option String → EngineOutcome) (cudaAvailable : Bool)
      (audio_file video_id : String) (language_code : Option String) (output_path : String)
      (auto_detect_language : Bool) (gpu_id : Nat) (fs : FS) (msg : String),
      fsExists fs (transcriptFilePath output_path video_id) = false →
      eng (deviceOf cudaAvailable gpu_id) audio_file
          (if auto_detect_language then none else language_code) = .exc msg →
      transcribe_audio_and_save_to_txt eng cudaAvailable audio_file video_id language_code
          output_path auto_detect_language gpu_id fs =
        { result := none, fs := fs, engInvocations := 1,
          failure := some ⟨video_id, msg⟩ }) :=
  ⟨fun dl video_id output_path fs msg h hdl =>
     download_miss_exc dl video_id output_path fs msg h hdl,
   fun eng cuda audio_file video_id language_code output_path ad gpu_id fs msg h heng =>
     transcribe_miss_exc eng cuda audio_file video_id language_code output_path ad gpu_id
       fs msg h heng⟩

/-- A download oracle that always raises. -/
def exDlBoom : String → DlOutcome := fun _ => .exc "HTTP 403"

/-- An engine oracle that always raises (e.g. model load fails). -/
def exEngBoom : String → String → Option String → EngineOutcome :=
  fun _ _ _ => .exc "CUDA out of memory"

/-- Witness for C4 at concrete inputs. -/
theorem C4_exception_containment_witness :
    download_youtube_audio exDlBoom "v9" "out" [] =
      { result := none, fs := [], dlInvocations := 1,
        failure := some ⟨"v9", "HTTP 403"⟩ } ∧
    transcribe_audio_and_save_to_txt exEngBoom false "out/v9.mp3" "v9" (some "kn") "out"
        false 0 [] =
      { result := none, fs := [], engInvocations := 1,
        failure := some ⟨"v9", "CUDA out of memory"⟩ } :=
  ⟨C4_exception_containment.1 exDlBoom "v9" "out" [] "HTTP 403" (by decide) rfl,
   C4_exception_containment.2 exEngBoom false "out/v9.mp3" "v9" (some "kn") "out" false 0 []
     "CUDA out of memory" (by decide) rfl⟩

/-! ## Claim C10 (implicit): acquisition success is unverified on a cache miss -/

/-- C10.  On a cache miss in which the external download mechanism raises
no exception, `download_youtube_audio` returns the pre-computed
deterministic path `{output_path}/{video_id}.mp3` for every set of files
the mechanism actually materialized — in particular, when it materialized
none, the call still "succeeds" with `some` path while no file exists at
that path afterwards; such an identifier then proceeds into the
transcription step (the engine block runs), which is where a missing
artifact is first able to surface as a failure. -/
theorem C10_unverified_acquisition_success :
    (∀ (dl : String → DlOutcome) (video_id output_path : String) (fs : FS) (created : FS),
      fsExists fs (audioFilePath output_path video_id) = false →
      dl video_id = .ok created →
      download_youtube_audio dl video_id output_path fs =
        { result := some (audioFilePath output_path video_id), fs := created ++ fs,
          dlInvocations := 1, failure := none }) ∧
    (∀ (dl : String → DlOutcome) (video_id output_path : String) (fs : FS),
      fsExists fs (audioFilePath output_path video_id) = false →
      dl video_id = .ok [] →
      (download_youtube_audio dl video_id output_path fs).result =
          some (audioFilePath output_path video_id) ∧
      fsExists (download_youtube_audio dl video_id output_path fs).fs
          (audioFilePath output_path video_id) = false) ∧
    (∀ (cfg : PipelineConfig) (fs : FS) (video_id : String),
      fsExists fs (audioFilePath cfg.output_path video_id) = false →
      cfg.dl video_id = .ok [] →
      fsExists fs (transcriptFilePath cfg.output_path video_id) = false →
      (processVideo cfg fs video_id).1.engInvocations = 1) := by
  refine ⟨download_miss_ok, ?_, ?_⟩
  · intro dl video_id output_path fs h hdl
    rw [download_miss_ok dl video_id output_path fs [] h hdl]
    exact ⟨rfl, h⟩
  · intro cfg fs video_id h hdl ht
    unfold processVideo
    rw [download_miss_ok cfg.dl video_id cfg.output_path fs [] h hdl]
    simp only [List.nil_append]
    cases heng : cfg.eng (deviceOf cfg.cudaAvailable cfg.gpu_id)
        (audioFilePath cfg.output_path video_id)
        (if cfg.auto_detect_language then none else cfg.language_code) with
    | ok segments =>
        rw [transcribe_miss_ok cfg.eng cfg.cudaAvailable _ video_id cfg.language_code
          cfg.output_path cfg.auto_detect_language cfg.gpu_id fs segments ht heng]
    | exc msg =>
        rw [transcribe_miss_exc cfg.eng cfg.cudaAvailable _ video_id cfg.language_code
          cfg.output_path cfg.auto_detect_language cfg.gpu_id fs msg ht heng]

/-- A download oracle that terminates normally but materializes nothing. -/
def exDlGhost : String → DlOutcome := fun _ => .ok []

/-- Witness for C10 at concrete inputs: the "successful" result points at
a path that does not exist, and the engine block still runs for it. -/
theorem C10_unverified_acquisition_success_witness :
    (download_youtube_audio exDlGhost "v1" "out" []).result = some "out/v1.mp3" ∧
    fsExists (download_youtube_audio exDlGhost "v1" "out" []).fs "out/v1.mp3" = false ∧
    (processVideo { exCfg with dl := exDlGhost } [] "v1").1.engInvocations = 1 :=
  ⟨(C10_unverified_acquisition_success.2.1 exDlGhost "v1" "out" [] (by decide) rfl).1,
   (C10_unverified_acquisition_success.2.1 exDlGhost "v1" "out" [] (by decide) rfl).2,
   C10_unverified_acquisition_success.2.2 { exCfg with dl := exDlGhost } [] "v1"
     (by decide) rfl (by decide)⟩

/-! ## Claim C7: transcript persistence format -/

theorem splitLinesChars_ne_nil (l : List Char) : splitLinesChars l ≠ [] := by
  cases l with
  | nil => simp [splitLinesChars]
  | cons c rest =>
    simp only [splitLinesChars]
    split
    · simp
    · cases h : splitLinesChars rest <;> simp

theorem splitLinesChars_append (l m : List Char) (hl : '\n' ∉ l)
    (x : List Char) (xs : List (List Char)) (hm : splitLinesChars m = x :: xs) :
    splitLinesChars (l ++ m) = (l ++ x) :: xs := by
  induction l with
  | nil => simpa using hm
  | cons c rest ih =>
    have hc : c ≠ '\n' := fun h => hl (h ▸ List.mem_cons_self c rest)
    have hrest : '\n' ∉ rest := fun h => hl (List.mem_cons_of_mem c h)
    simp only [List.cons_append, splitLinesChars, if_neg hc, List.append_eq]
    rw [ih hrest]

/-- Python `s.splitlines()` for newline-separated text: the chunks between
newline characters, without a trailing empty chunk when the text ends in a
newline. -/
def splitlines (s : String) : List String :=
  let parts := splitLinesChars s.data
  (if parts.getLast? = some [] then parts.dropLast else parts).map (fun l => String.mk l)

theorem transcriptContent_cons_data (seg : TranscriptSegment) (rest : List TranscriptSegment) :
    (transcriptContent (seg :: rest)).data =
      seg.text.data ++ '\n' :: (transcriptContent rest).data := by
  show (seg.text ++ "\n" ++ transcriptContent rest).data = _
  rw [String.data_append, String.data_append, List.append_assoc]
  rfl

theorem splitLinesChars_transcriptContent (segments : List TranscriptSegment)
    (h : ∀ seg ∈ segments, '\n' ∉ seg.text.data) :
    splitLinesChars (transcriptContent segments).data =
      segments.map (fun seg => seg.text.data) ++ [[]] := by
  induction segments with
  | nil => rfl
  | cons seg rest ih =>
    have hseg : '\n' ∉ seg.text.data := h seg (List.mem_cons_self seg rest)
    have hrest : ∀ s ∈ rest, '\n' ∉ s.text.data := fun s hs => h s (List.mem_cons_of_mem seg hs)
    rw [transcriptContent_cons_data]
    have hm : splitLinesChars ('\n' :: (transcriptContent rest).data) =
        [] :: splitLinesChars (transcriptContent rest).data := by
      simp [splitLinesChars]
    rw [splitLinesChars_append seg.text.data _ hseg _ _ hm, ih hrest]
    simp

/-- C7.  Transcript persistence format: a non-short-circuited successful
Transcription writes, at the deterministic transcript path, exactly the
concatenation of one `{text}\n` record per segment in segment order
(`transcriptContent`); whenever no segment text itself contains a newline,
the lines of the written file are exactly the segment texts in order; and
for the segment sequence `[(0.0,"a"), (2.0,"b"), (5.0,"c")]` the file
contents are `"a\nb\nc\n"`, whose lines are exactly `a`, `b`, `c`. -/
theorem C7_transcript_persistence_format :
    (∀ (eng : String → String → Option String → EngineOutcome) (cudaAvailable : Bool)
      (audio_file video_id : String) (language_code : Option String) (output_path : String)
      (auto_detect_language : Bool) (gpu_id : Nat) (fs : FS)
      (segments : List TranscriptSegment),
      fsExists fs (transcriptFilePath output_path video_id) = false →
      eng (deviceOf cudaAvailable gpu_id) audio_file
          (if auto_detect_language then none else language_code) = .ok segments →
      transcribe_audio_and_save_to_txt eng cudaAvailable audio_file video_id language_code
          output_path auto_detect_language gpu_id fs =
        { result := some (transcriptFilePath output_path video_id),
          fs := (transcriptFilePath output_path video_id, transcriptContent segments) :: fs,
          engInvocations := 1, failure := none }) ∧
    (∀ segments : List TranscriptSegment,
      (∀ seg ∈ segments, '\n' ∉ seg.text.data) →
      splitlines (transcriptContent segments) = segments.map (fun seg => seg.text)) ∧
    (transcriptContent [⟨0, 2, "a"⟩, ⟨2, 5, "b"⟩, ⟨5, 6, "c"⟩] = "a\nb\nc\n" ∧
      splitlines "a\nb\nc\n" = ["a", "b", "c"]) := by
  refine ⟨transcribe_miss_ok, ?_, by decide, by decide⟩
  intro segments h
  simp only [splitlines]
  rw [splitLinesChars_transcriptContent segments h]
  have h1 : (segments.map (fun seg : TranscriptSegment => seg.text.data) ++ [[]]).getLast? =
      some [] := by simp
  have h2 : (segments.map (fun seg : TranscriptSegment => seg.text.data) ++ [[]]).dropLast =
      segments.map (fun seg : TranscriptSegment => seg.text.data) := by simp
  rw [h1, if_pos rfl, h2, List.map_map]
  rfl

/-- Witness for C7 at concrete inputs: the engine returns the three
segments of the claim and the written file holds lines `a`, `b`, `c`. -/
theorem C7_transcript_persistence_format_witness :
    transcribe_audio_and_save_to_txt
        (fun _ _ _ => .ok [⟨0, 2, "a"⟩, ⟨2, 5, "b"⟩, ⟨5, 6, "c"⟩]) false "out/v1.mp3" "v1"
        (some "hi") "out" false 0 [] =
      { result := some (transcriptFilePath "out" "v1"),
        fs := [(transcriptFilePath "out" "v1",
                transcriptContent [⟨0, 2, "a"⟩, ⟨2, 5, "b"⟩, ⟨5, 6, "c"⟩])],
        engInvocations := 1, failure := none } ∧
    splitlines (transcriptContent [⟨0, 2, "a"⟩, ⟨2, 5, "b"⟩, ⟨5, 6, "c"⟩]) = ["a", "b", "c"] :=
  ⟨C7_transcript_persistence_format.1
      (fun _ _ _ => .ok [⟨0, 2, "a"⟩, ⟨2, 5, "b"⟩, ⟨5, 6, "c"⟩]) false "out/v1.mp3" "v1"
      (some "hi") "out" false 0 [] [⟨0, 2, "a"⟩, ⟨2, 5, "b"⟩, ⟨5, 6, "c"⟩] (by decide) rfl,
   C7_transcript_persistence_format.2.1 [⟨0, 2, "a"⟩, ⟨2, 5, "b"⟩, ⟨5, 6, "c"⟩] (by decide)⟩

/-! ## Claim C6: metadata batching and per-chunk recovery -/

theorem chunks50_go_fuel : ∀ (fuel fuel' : Nat) (ids : List String),
    ids.length ≤ fuel → ids.length ≤ fuel' → chunks50_go fuel ids = chunks50_go fuel' ids := by
  intro fuel
  induction fuel with
  | zero =>
    intro fuel' ids h h'
    cases ids with
    | nil => cases fuel' <;> rfl
    | cons x xs => simp at h
  | succ fuel ih =>
    intro fuel' ids h h'
    cases ids with
    | nil => cases fuel' <;> rfl
    | cons x xs =>
      cases fuel' with
      | zero => simp at h'
      | succ fuel' =>
        simp only [chunks50_go]
        rw [ih fuel' ((x :: xs).drop 50) (by simp at h ⊢; omega) (by simp at h' ⊢; omega)]

theorem chunks50_cons (x : String) (xs : List String) :
    chunks50 (x :: xs) = (x :: xs).take 50 :: chunks50 ((x :: xs).drop 50) := by
  show chunks50_go (x :: xs).length (x :: xs) = _
  simp only [List.length_cons, chunks50_go]
  rw [chunks50_go_fuel xs.length ((x :: xs).drop 50).length ((x :: xs).drop 50)
    (by simp only [List.length_drop, List.length_cons]; omega) le_rfl]
  rfl

theorem get_video_info_go_spec (api : List String → ApiOutcome) :
    ∀ (fuel : Nat) (ids : List String), ids.length ≤ fuel →
      get_video_info_go api fuel ids =
        ((chunks50 ids).flatMap
          (fun c => match api c with | .ok items => items | .exc _ => []),
         (chunks50 ids).length) := by
  intro fuel
  induction fuel with
  | zero =>
    intro ids h
    cases ids with
    | nil => rfl
    | cons x xs => simp at h
  | succ fuel ih =>
    intro ids h
    cases ids with
    | nil => rfl
    | cons x xs =>
      rw [chunks50_cons]
      simp only [get_video_info_go]
      rw [ih ((x :: xs).drop 50) (by simp at h ⊢; omega)]
      cases hapi : api ((x :: xs).take 50) with
      | ok items => simp only [hapi, List.flatMap_cons, List.length_cons, List.nil_append]
      | exc msg => simp only [hapi, List.flatMap_cons, List.length_cons, List.nil_append]

theorem chunks50_go_length_ceil : ∀ (fuel : Nat) (ids : List String), ids.length ≤ fuel →
    (chunks50_go fuel ids).length = (ids.length + 49) / 50 := by
  intro fuel
  induction fuel with
  | zero =>
    intro ids h
    cases ids with
    | nil => rfl
    | cons x xs => simp at h
  | succ fuel ih =>
    intro ids h
    cases ids with
    | nil => rfl
    | cons x xs =>
      simp only [chunks50_go, List.length_cons]
      rw [ih ((x :: xs).drop 50) (by simp at h ⊢; omega)]
      simp only [List.length_drop, List.length_cons]
      omega

/-- 120 distinct identifiers, `"0"` to `"119"`. -/
def ids120 : List String := (List.range 120).map (fun n => toString n)

/-- A metadata oracle whose request fails exactly on the chunk holding
identifier `"50"` (the second chunk of `ids120`) and otherwise returns
one entry per requested identifier. -/
def exApi : List String → ApiOutcome := fun c =>
  if c.contains "50" then .exc "quota exceeded"
  else .ok (c.map (fun i => ⟨i, "t", "p", "d"⟩))

/-- C6.  Metadata batching and per-chunk recovery: `get_video_info`
partitions the identifier list into the consecutive chunks `chunks50` of
at most 50 and issues exactly `⌈n/50⌉` batched requests; its result is the
concatenation, over the chunks in order, of each successful chunk's
entries, a failed chunk contributing nothing; for `ids120` (120
identifiers) the chunks have sizes 50, 50, 20, exactly 3 requests are
issued, and with the second chunk failing the entries returned are
exactly those of the first and third chunks. -/
theorem C6_metadata_batching :
    (∀ (api : List String → ApiOutcome) (ids : List String),
      (get_video_info api ids).2 = (ids.length + 49) / 50) ∧
    (∀ (api : List String → ApiOutcome) (ids : List String),
      (get_video_info api ids).1 =
        (chunks50 ids).flatMap
          (fun c => match api c with | .ok items => items | .exc _ => [])) ∧
    ((chunks50 ids120).map List.length = [50, 50, 20] ∧
      (get_video_info exApi ids120).2 = 3 ∧
      (get_video_info exApi ids120).1.map VideoInfo.id = ids120.take 50 ++ ids120.drop 100) := by
  refine ⟨?_, ?_, by decide, by decide, by decide⟩
  · intro api ids
    show (get_video_info_go api ids.length ids).2 = _
    rw [get_video_info_go_spec api ids.length ids le_rfl]
    exact chunks50_go_length_ceil ids.length ids le_rfl
  · intro api ids
    show (get_video_info_go api ids.length ids).1 = _
    rw [get_video_info_go_spec api ids.length ids le_rfl]

/-! ## Claim C9: language-mode exclusivity -/

/-- The seven-language select box of the Streamlit entry
(`youtube_whisper_transcript.py` lines 219-222). -/
def streamlitLanguages : List String :=
  ["Kannada", "Hindi", "Tamil", "Marathi", "Gujarati", "Punjabi", "Bengali"]

theorem selectLanguage_mem (argLanguage : Option String) (promptChoice : String)
    (h : ∀ l, argLanguage = some l → l ∈ languages) :
    selectLanguage argLanguage promptChoice ∈ languages := by
  cases argLanguage with
  | some l => exact h l rfl
  | none =>
    simp only [selectLanguage]
    split
    · decide
    · split
      · decide
      · split
        · rename_i idx _ _
          cases hd : languages.drop (idx - 1).toNat with
          | nil => simp [hd]; decide
          | cons a t =>
            simp only [hd, List.headD_cons]
            exact List.mem_of_mem_drop (hd ▸ List.mem_cons_self a t)
        · decide

theorem languageMode_excl (l : String) (hl : l ∈ languages) :
    ((languageMode l).1 = true ∧ (languageMode l).2 = none) ∨
    ((languageMode l).1 = false ∧ ∃ c, (languageMode l).2 = some c) := by
  fin_cases hl
  · exact Or.inl ⟨by decide, by decide⟩
  · exact Or.inr ⟨by decide, "kn", by decide⟩
  · exact Or.inr ⟨by decide, "hi", by decide⟩
  · exact Or.inr ⟨by decide, "ta", by decide⟩
  · exact Or.inr ⟨by decide, "mr", by decide⟩
  · exact Or.inr ⟨by decide, "gu", by decide⟩
  · exact Or.inr ⟨by decide, "pa", by decide⟩
  · exact Or.inr ⟨by decide, "bn", by decide⟩

/-- C9.  Language-mode exclusivity: for every `--language` value the
argparse choices admit (or any interactive menu input), the
`(auto_detect_language, language_code)` pair the server entry constructs
and passes to Transcription has exactly one mode active — auto-detect set
with no language code, or auto-detect clear with a concrete language
code; the Streamlit entry's pair (checkbox plus seven-language select
box) satisfies the same exclusivity.  In particular no call is ever
constructed with both an explicit language code and auto-detect set. -/
theorem C9_language_mode_exclusivity :
    (∀ (argLanguage : Option String) (promptChoice : String),
      (∀ l, argLanguage = some l → l ∈ languages) →
      ((languageMode (selectLanguage argLanguage promptChoice)).1 = true ∧
        (languageMode (selectLanguage argLanguage promptChoice)).2 = none) ∨
      ((languageMode (selectLanguage argLanguage promptChoice)).1 = false ∧
        ∃ c, (languageMode (selectLanguage argLanguage promptChoice)).2 = some c)) ∧
    (∀ (auto_detect_language : Bool) (selected_language : String),
      selected_language ∈ streamlitLanguages →
      ((streamlitLanguageSettings auto_detect_language selected_language).1 = true ∧
        (streamlitLanguageSettings auto_detect_language selected_language).2 = none) ∨
      ((streamlitLanguageSettings auto_detect_language selected_language).1 = false ∧
        ∃ c, (streamlitLanguageSettings auto_detect_language selected_language).2 = some c)) := by
  constructor
  · intro argLanguage promptChoice h
    exact languageMode_excl _ (selectLanguage_mem argLanguage promptChoice h)
  · intro auto_detect_language selected_language hsel
    cases auto_detect_language with
    | true => exact Or.inl ⟨rfl, rfl⟩
    | false =>
      refine Or.inr ⟨rfl, ?_⟩
      fin_cases hsel
      · exact ⟨"kn", by decide⟩
      · exact ⟨"hi", by decide⟩
      · exact ⟨"ta", by decide⟩
      · exact ⟨"mr", by decide⟩
      · exact ⟨"gu", by decide⟩
      · exact ⟨"pa", by decide⟩
      · exact ⟨"bn", by decide⟩

/-- Witness for C9 at concrete inputs: no `--language` argument together
with menu input `"1"` (auto-detect), and the Streamlit pair with the
checkbox off and `"Tamil"` selected. -/
theorem C9_language_mode_exclusivity_witness :
    (((languageMode (selectLanguage none "1")).1 = true ∧
        (languageMode (selectLanguage none "1")).2 = none) ∨
      ((languageMode (selectLanguage none "1")).1 = false ∧
        ∃ c, (languageMode (selectLanguage none "1")).2 = some c)) ∧
    (((streamlitLanguageSettings false "Tamil").1 = true ∧
        (streamlitLanguageSettings false "Tamil").2 = none) ∨
      ((streamlitLanguageSettings false "Tamil").1 = false ∧
        ∃ c, (streamlitLanguageSettings false "Tamil").2 = some c)) :=
  ⟨C9_language_mode_exclusivity.1 none "1" (fun l h => nomatch h),
   C9_language_mode_exclusivity.2 false "Tamil" (by decide)⟩

/-! ## Orchestrator loop lemmas -/

theorem processVideo_videoId (cfg : PipelineConfig) (fs : FS) (v : String) :
    (processVideo cfg fs v).1.videoId = v := by
  simp only [processVideo]
  split
  · rfl
  · split <;> rfl

theorem runBatch_cons (cfg : PipelineConfig) (v : String) (rest : List String) (fs : FS) :
    runBatch cfg (v :: rest) fs =
      ⟨(runBatch cfg rest (processVideo cfg fs v).2).fs,
       (processVideo cfg fs v).1 :: (runBatch cfg rest (processVideo cfg fs v).2).trace,
       (match (processVideo cfg fs v).1.outcome with
         | .done _ => []
         | _ => [v]) ++ (runBatch cfg rest (processVideo cfg fs v).2).failed⟩ := rfl

theorem runBatch_trace_ids (cfg : PipelineConfig) (ids : List String) :
    ∀ fs : FS, (runBatch cfg ids fs).trace.map ItemRecord.videoId = ids := by
  induction ids with
  | nil => intro fs; rfl
  | cons v rest ih =>
    intro fs
    rw [runBatch_cons]
    show (processVideo cfg fs v).1.videoId ::
        ((runBatch cfg rest (processVideo cfg fs v).2).trace.map ItemRecord.videoId) = v :: rest
    rw [processVideo_videoId, ih]

theorem runBatch_failed_spec (cfg : PipelineConfig) (ids : List String) :
    ∀ fs : FS,
      (runBatch cfg ids fs).failed =
        (runBatch cfg ids fs).trace.filterMap
          (fun it => match it.outcome with | .done _ => none | _ => some it.videoId) := by
  induction ids with
  | nil => intro fs; rfl
  | cons v rest ih =>
    intro fs
    rw [runBatch_cons]
    show (match (processVideo cfg fs v).1.outcome with
        | .done _ => []
        | _ => [v]) ++ (runBatch cfg rest (processVideo cfg fs v).2).failed =
      List.filterMap _ ((processVideo cfg fs v).1 ::
        (runBatch cfg rest (processVideo cfg fs v).2).trace)
    rw [List.filterMap_cons, ih]
    cases ho : (processVideo cfg fs v).1.outcome with
    | done t => simp [ho]
    | acqFailed => simp [ho, processVideo_videoId]
    | trFailed => simp [ho, processVideo_videoId]

/-! ## Claim C1: failure isolation in the batch orchestrator -/

/-- C1.  Failure isolation: the loop produces one trace record per work
list entry, in list order, so no failure prevents a later identifier from
being attempted; an iteration whose Acquisition returns no path ends as
`acqFailed` with zero engine invocations (Transcription is not attempted);
an iteration whose Acquisition succeeds but whose Transcription returns
`None` ends as `trFailed`; the accumulated `failed_videos` list is exactly
the non-`done` identifiers of the trace, in order; and on the concrete
3-item list where the 2nd item's download raises, the run reports
`failed = ["id2"]` while `id1` and `id3` are attempted, in order, and
succeed. -/
theorem C1_failure_isolation :
    (∀ (cfg : PipelineConfig) (ids : List String) (fs : FS),
      (runBatch cfg ids fs).trace.map ItemRecord.videoId = ids) ∧
    (∀ (cfg : PipelineConfig) (fs : FS) (v : String),
      (download_youtube_audio cfg.dl v cfg.output_path fs).result = none →
      (processVideo cfg fs v).1.outcome = .acqFailed ∧
      (processVideo cfg fs v).1.engInvocations = 0) ∧
    (∀ (cfg : PipelineConfig) (fs : FS) (v audio_file : String),
      (download_youtube_audio cfg.dl v cfg.output_path fs).result = some audio_file →
      (transcribe_audio_and_save_to_txt cfg.eng cfg.cudaAvailable audio_file v
          cfg.language_code cfg.output_path cfg.auto_detect_language cfg.gpu_id
          (download_youtube_audio cfg.dl v cfg.output_path fs).fs).result = none →
      (processVideo cfg fs v).1.outcome = .trFailed) ∧
    (∀ (cfg : PipelineConfig) (ids : List String) (fs : FS),
      (runBatch cfg ids fs).failed =
        (runBatch cfg ids fs).trace.filterMap
          (fun it => match it.outcome with | .done _ => none | _ => some it.videoId)) ∧
    ((runBatch exCfg ["id1", "id2", "id3"] []).failed = ["id2"] ∧
      (runBatch exCfg ["id1", "id2", "id3"] []).trace.map ItemRecord.outcome =
        [.done "out/id1_transcription.txt", .acqFailed,
         .done "out/id3_transcription.txt"] ∧
      (runBatch exCfg ["id1", "id2", "id3"] []).trace.map ItemRecord.videoId =
        ["id1", "id2", "id3"]) := by
  refine ⟨fun cfg ids fs => runBatch_trace_ids cfg ids fs, ?_, ?_,
    fun cfg ids fs => runBatch_failed_spec cfg ids fs, by decide, by decide, by decide⟩
  · intro cfg fs v h
    constructor
    · simp [processVideo, h]
    · simp [processVideo, h]
  · intro cfg fs v audio_file hdl htr
    simp [processVideo, hdl, htr]

/-- Witness for C1 at concrete inputs: `id2` fails acquisition (engine
untouched), and `id1` with an always-raising engine fails transcription. -/
theorem C1_failure_isolation_witness :
    ((processVideo exCfg [] "id2").1.outcome = .acqFailed ∧
      (processVideo exCfg [] "id2").1.engInvocations = 0) ∧
    (processVideo { exCfg with eng := exEngBoom } [] "id1").1.outcome = .trFailed :=
  ⟨C1_failure_isolation.2.1 exCfg [] "id2" (by decide),
   C1_failure_isolation.2.2.1 { exCfg with eng := exEngBoom } [] "id1" "out/id1.mp3"
     (by decide) (by decide)⟩

/-! ## Claim C5: the final summary -/

/-- C5 counterexample.  The terminal report of the orchestrator (line
226, modelled by `finalSummary`) is identical for a 1-item run with 1
`done` item and a 2-item run with 2 `done` items: it therefore cannot be
reporting the count of identifiers processed nor the count that reached
`done` — contradicting the claim that, after the last identifier, the
orchestrator reports both counts alongside the failed list. -/
theorem C5_final_summary_counterexample :
    finalSummary (runBatch exCfg ["a"] []) = finalSummary (runBatch exCfg ["a", "b"] []) ∧
    (doneIds (runBatch exCfg ["a"] [])).length = 1 ∧
    (doneIds (runBatch exCfg ["a", "b"] [])).length = 2 ∧
    (runBatch exCfg ["a"] []).trace.length = 1 ∧
    (runBatch exCfg ["a", "b"] []).trace.length = 2 := by
  exact ⟨by decide, by decide, by decide, by decide, by decide⟩

/-- C5 (amended).  After the work list is exhausted the orchestrator's
final report is the fixed prefix followed by exactly the ordered
`failed_videos` list — the identifiers whose iteration did not reach
`done`, in failure-occurrence order (one trace record exists per input
identifier, in list order); processed and `done` counts are not part of
that report. -/
theorem C5_amended_failed_list_report :
    ∀ (cfg : PipelineConfig) (ids : List String) (fs : FS),
      finalSummary (runBatch cfg ids fs) =
        "Processing complete! Failed videos: " ++ toString (runBatch cfg ids fs).failed ∧
      (runBatch cfg ids fs).failed =
        (runBatch cfg ids fs).trace.filterMap
          (fun it => match it.outcome with | .done _ => none | _ => some it.videoId) ∧
      (runBatch cfg ids fs).trace.map ItemRecord.videoId = ids :=
  fun cfg ids fs =>
    ⟨rfl, runBatch_failed_spec cfg ids fs, runBatch_trace_ids cfg ids fs⟩

/-! ## Claim C8: pre-flight exit behavior -/

/-- C8.  Pre-flight exit behaviour: a wrong input-file extension, a
non-existent input file, or an unresolvable credential (neither a truthy
`--api_key` nor a truthy `YT_API_KEY`) each terminate `main` with exit
status 1 and a descriptive message before any pipeline work — zero
download, engine, and metadata invocations, file system untouched;
conversely, once the pre-flight checks pass and the identifier list is
nonempty, the process always ends with exit status 0 and no error
message, whatever the per-item failures (which are accumulated into the
reported `failed` list). -/
theorem C8_preflight_exit_behavior :
    (∀ (w : World) (args : Args),
      pyEndsWith (pyLower args.video_ids_file) ".txt" = false →
      (mainRun w args).exitCode = 1 ∧ (mainRun w args).errorMsg.isSome = true ∧
      (mainRun w args).dlInvocations = 0 ∧ (mainRun w args).engInvocations = 0 ∧
      (mainRun w args).metadataRequests = 0 ∧ (mainRun w args).fs = w.fs) ∧
    (∀ (w : World) (args : Args),
      pyEndsWith (pyLower args.video_ids_file) ".txt" = true →
      fsExists w.fs args.video_ids_file = false →
      (mainRun w args).exitCode = 1 ∧ (mainRun w args).errorMsg.isSome = true ∧
      (mainRun w args).dlInvocations = 0 ∧ (mainRun w args).engInvocations = 0 ∧
      (mainRun w args).metadataRequests = 0 ∧ (mainRun w args).fs = w.fs) ∧
    (∀ (w : World) (args : Args),
      pyEndsWith (pyLower args.video_ids_file) ".txt" = true →
      fsExists w.fs args.video_ids_file = true →
      pyTruthy (pyOr args.api_key w.envApiKey) = false →
      (mainRun w args).exitCode = 1 ∧ (mainRun w args).errorMsg.isSome = true ∧
      (mainRun w args).dlInvocations = 0 ∧ (mainRun w args).engInvocations = 0 ∧
      (mainRun w args).metadataRequests = 0 ∧ (mainRun w args).fs = w.fs) ∧
    (∀ (w : World) (args : Args),
      pyEndsWith (pyLower args.video_ids_file) ".txt" = true →
      fsExists w.fs args.video_ids_file = true →
      pyTruthy (pyOr args.api_key w.envApiKey) = true →
      (read_video_ids_from_file (fsRead w.fs args.video_ids_file)).isEmpty = false →
      (mainRun w args).exitCode = 0 ∧ (mainRun w args).errorMsg = none ∧
      (mainRun w args).failed =
        (runBatch
          { dl := w.dl, eng := w.eng, cudaAvailable := w.cudaAvailable,
            output_path := args.output_path,
            language_code := (languageMode (selectLanguage args.language w.promptChoice)).2,
            auto_detect_language := (languageMode (selectLanguage args.language w.promptChoice)).1,
            gpu_id := args.gpu_id }
          (read_video_ids_from_file (fsRead w.fs args.video_ids_file)) w.fs).failed) := by
  refine ⟨?_, ?_, ?_, ?_⟩
  · intro w args h
    simp [mainRun, h]
  · intro w args h1 h2
    simp [mainRun, h1, h2]
  · intro w args h1 h2 h3
    simp [mainRun, h1, h2, h3]
  · intro w args h1 h2 h3 h4
    simp [mainRun, h1, h2, h3, h4]

/-- Witness for C8 at concrete inputs: a `.csv` input file exits 1 with
no work done; the well-formed configuration `exWorld`/`exArgs` (in which
item `id2` fails) still exits 0 and reports `failed = ["id2"]`. -/
theorem C8_preflight_exit_behavior_witness :
    ((mainRun exWorld { exArgs with video_ids_file := "ids.csv" }).exitCode = 1 ∧
      (mainRun exWorld { exArgs with video_ids_file := "ids.csv" }).dlInvocations = 0) ∧
    ((mainRun exWorld exArgs).exitCode = 0 ∧ (mainRun exWorld exArgs).errorMsg = none) :=
  ⟨⟨(C8_preflight_exit_behavior.1 exWorld { exArgs with video_ids_file := "ids.csv" }
        (by decide)).1,
    (C8_preflight_exit_behavior.1 exWorld { exArgs with video_ids_file := "ids.csv" }
        (by decide)).2.2.1⟩,
   ⟨(C8_preflight_exit_behavior.2.2.2 exWorld exArgs (by decide) (by decide) (by decide)
        (by decide)).1,
    (C8_preflight_exit_behavior.2.2.2 exWorld exArgs (by decide) (by decide) (by decide)
        (by decide)).2.1⟩⟩

/-! ## Path and file-system lemmas (towards claim C3) -/

theorem pathJoin_inj (out s t : String) (h : pathJoin out s = pathJoin out t) : s = t := by
  have hd := congrArg String.data h
  simp only [pathJoin, String.data_append, List.append_assoc] at hd
  exact String.ext (List.append_cancel_left (List.append_cancel_left hd))

theorem append_suffix_inj (x y suf : String) (h : x ++ suf = y ++ suf) : x = y := by
  have hd := congrArg String.data h
  simp only [String.data_append] at hd
  exact String.ext (List.append_cancel_right hd)

theorem audioFilePath_inj (out x y : String) (h : audioFilePath out x = audioFilePath out y) :
    x = y :=
  append_suffix_inj x y ".mp3" (pathJoin_inj out _ _ h)

theorem transcriptFilePath_inj (out x y : String)
    (h : transcriptFilePath out x = transcriptFilePath out y) : x = y :=
  append_suffix_inj x y "_transcription.txt" (pathJoin_inj out _ _ h)

theorem audioFilePath_ne_transcriptFilePath (out x y : String) :
    audioFilePath out x ≠ transcriptFilePath out y := by
  intro h
  have h' := pathJoin_inj out _ _ h
  have hd := congrArg String.data h'
  simp only [String.data_append] at hd
  have hlast := congrArg List.getLast? hd
  rw [List.getLast?_append_of_ne_nil _ (show ".mp3".data ≠ [] by decide),
      List.getLast?_append_of_ne_nil _
        (show "_transcription.txt".data ≠ [] by decide)] at hlast
  exact absurd hlast (by decide)

theorem fsExists_append (a b : FS) (p : String) :
    fsExists (a ++ b) p = (fsExists a p || fsExists b p) := List.any_append

theorem fsExists_cons (e : String × String) (fs : FS) (p : String) :
    fsExists (e :: fs) p = ((e.1 == p) || fsExists fs p) := List.any_cons

theorem fsExists_mono {fs fs' : FS} (h : fs <:+ fs') {p : String}
    (hp : fsExists fs p = true) : fsExists fs' p = true := by
  obtain ⟨pre, rfl⟩ := h
  rw [fsExists_append, hp, Bool.or_true]

theorem fsExists_eq_of_keys (created : FS) (q : String)
    (hk : created.map Prod.fst = [q]) (p : String) (hne : p ≠ q) :
    fsExists created p = false := by
  cases hc : fsExists created p with
  | false => rfl
  | true =>
    exfalso
    simp only [fsExists, List.any_eq_true] at hc
    obtain ⟨e, he, heq⟩ := hc
    have : p ∈ created.map Prod.fst := List.mem_map.mpr ⟨e, he, eq_of_beq heq⟩
    rw [hk] at this
    simp at this
    exact hne this

theorem fsExists_self_of_keys (created : FS) (q : String)
    (hk : created.map Prod.fst = [q]) : fsExists created q = true := by
  cases created with
  | nil => simp at hk
  | cons e rest =>
    simp only [List.map_cons, List.cons.injEq] at hk
    simp [fsExists, List.any_cons, hk.1]

/-! ## Case analyses of the two steps and of one loop iteration -/

theorem download_cases (dl : String → DlOutcome) (video_id output_path : String) (fs : FS) :
    (fsExists fs (audioFilePath output_path video_id) = true ∧
      download_youtube_audio dl video_id output_path fs =
        { result := some (audioFilePath output_path video_id), fs := fs,
          dlInvocations := 0, failure := none }) ∨
    (fsExists fs (audioFilePath output_path video_id) = false ∧
      ∃ created, dl video_id = .ok created ∧
        download_youtube_audio dl video_id output_path fs =
          { result := some (audioFilePath output_path video_id), fs := created ++ fs,
            dlInvocations := 1, failure := none }) ∨
    (fsExists fs (audioFilePath output_path video_id) = false ∧
      ∃ msg, dl video_id = .exc msg ∧
        download_youtube_audio dl video_id output_path fs =
          { result := none, fs := fs, dlInvocations := 1,
            failure := some ⟨video_id, msg⟩ }) := by
  cases h : fsExists fs (audioFilePath output_path video_id) with
  | true => exact Or.inl ⟨rfl, download_hit dl video_id output_path fs h⟩
  | false =>
    cases hdl : dl video_id with
    | ok created =>
      exact Or.inr (Or.inl ⟨rfl, created, rfl,
        download_miss_ok dl video_id output_path fs created h hdl⟩)
    | exc msg =>
      exact Or.inr (Or.inr ⟨rfl, msg, rfl,
        download_miss_exc dl video_id output_path fs msg h hdl⟩)

theorem transcribe_cases (eng : String → String → Option String → EngineOutcome)
    (cudaAvailable : Bool) (audio_file video_id : String) (language_code : Option String)
    (output_path : String) (auto_detect_language : Bool) (gpu_id : Nat) (fs : FS) :
    (fsExists fs (transcriptFilePath output_path video_id) = true ∧
      transcribe_audio_and_save_to_txt eng cudaAvailable audio_file video_id language_code
          output_path auto_detect_language gpu_id fs =
        { result := some (transcriptFilePath output_path video_id), fs := fs,
          engInvocations := 0, failure := none }) ∨
    (fsExists fs (transcriptFilePath output_path video_id) = false ∧
      ∃ segments, eng (deviceOf cudaAvailable gpu_id) audio_file
          (if auto_detect_language then none else language_code) = .ok segments ∧
        transcribe_audio_and_save_to_txt eng cudaAvailable audio_file video_id language_code
            output_path auto_detect_language gpu_id fs =
          { result := some (transcriptFilePath output_path video_id),
            fs := (transcriptFilePath output_path video_id, transcriptContent segments) :: fs,
            engInvocations := 1, failure := none }) ∨
    (fsExists fs (transcriptFilePath output_path video_id) = false ∧
      ∃ msg, eng (deviceOf cudaAvailable gpu_id) audio_file
          (if auto_detect_language then none else language_code) = .exc msg ∧
        transcribe_audio_and_save_to_txt eng cudaAvailable audio_file video_id language_code
            output_path auto_detect_language gpu_id fs =
          { result := none, fs := fs, engInvocations := 1,
            failure := some ⟨video_id, msg⟩ }) := by
  cases h : fsExists fs (transcriptFilePath output_path video_id) with
  | true =>
    exact Or.inl ⟨rfl, transcribe_hit eng cudaAvailable audio_file video_id language_code
      output_path auto_detect_language gpu_id fs h⟩
  | false =>
    cases heng : eng (deviceOf cudaAvailable gpu_id) audio_file
        (if auto_detect_language then none else language_code) with
    | ok segments =>
      exact Or.inr (Or.inl ⟨rfl, segments, rfl,
        transcribe_miss_ok eng cudaAvailable audio_file video_id language_code output_path
          auto_detect_language gpu_id fs segments h heng⟩)
    | exc msg =>
      exact Or.inr (Or.inr ⟨rfl, msg, rfl,
        transcribe_miss_exc eng cudaAvailable audio_file video_id language_code output_path
          auto_detect_language gpu_id fs msg h heng⟩)

/-- Contract of the external download mechanism assumed for orchestrator
idempotence: when `ydl.download` terminates normally it has materialized
exactly the requested deterministic audio artifact (the spec treats the
mechanism as "a black box returning a file or failure"). -/
def WellBehavedDl (cfg : PipelineConfig) : Prop :=
  ∀ video_id created, cfg.dl video_id = .ok created →
    created.map Prod.fst = [audioFilePath cfg.output_path video_id]

theorem processVideo_analysis (cfg : PipelineConfig) (hw : WellBehavedDl cfg) (fs : FS)
    (id : String) :
    (fsExists fs (audioFilePath cfg.output_path id) = true ∧
      fsExists fs (transcriptFilePath cfg.output_path id) = true ∧
      processVideo cfg fs id =
        (⟨id, .done (transcriptFilePath cfg.output_path id), 0, 0⟩, fs)) ∨
    (fsExists fs (audioFilePath cfg.output_path id) = true ∧
      fsExists fs (transcriptFilePath cfg.output_path id) = false ∧
      ∃ segments, cfg.eng (deviceOf cfg.cudaAvailable cfg.gpu_id)
          (audioFilePath cfg.output_path id)
          (if cfg.auto_detect_language then none else cfg.language_code) = .ok segments ∧
        processVideo cfg fs id =
          (⟨id, .done (transcriptFilePath cfg.output_path id), 0, 1⟩,
            (transcriptFilePath cfg.output_path id, transcriptContent segments) :: fs)) ∨
    (fsExists fs (audioFilePath cfg.output_path id) = true ∧
      fsExists fs (transcriptFilePath cfg.output_path id) = false ∧
      ∃ msg, cfg.eng (deviceOf cfg.cudaAvailable cfg.gpu_id)
          (audioFilePath cfg.output_path id)
          (if cfg.auto_detect_language then none else cfg.language_code) = .exc msg ∧
        processVideo cfg fs id = (⟨id, .trFailed, 0, 1⟩, fs)) ∨
    (fsExists fs (audioFilePath cfg.output_path id) = false ∧
      ∃ created, cfg.dl id = .ok created ∧
        created.map Prod.fst = [audioFilePath cfg.output_path id] ∧
        ((fsExists fs (transcriptFilePath cfg.output_path id) = true ∧
          processVideo cfg fs id =
            (⟨id, .done (transcriptFilePath cfg.output_path id), 1, 0⟩, created ++ fs)) ∨
         (fsExists fs (transcriptFilePath cfg.output_path id) = false ∧
          ∃ segments, cfg.eng (deviceOf cfg.cudaAvailable cfg.gpu_id)
              (audioFilePath cfg.output_path id)
              (if cfg.auto_detect_language then none else cfg.language_code) = .ok segments ∧
            processVideo cfg fs id =
              (⟨id, .done (transcriptFilePath cfg.output_path id), 1, 1⟩,
                (transcriptFilePath cfg.output_path id, transcriptContent segments) ::
                  (created ++ fs))) ∨
         (fsExists fs (transcriptFilePath cfg.output_path id) = false ∧
          ∃ msg, cfg.eng (deviceOf cfg.cudaAvailable cfg.gpu_id)
              (audioFilePath cfg.output_path id)
              (if cfg.auto_detect_language then none else cfg.language_code) = .exc msg ∧
            processVideo cfg fs id = (⟨id, .trFailed, 1, 1⟩, created ++ fs)))) ∨
    (fsExists fs (audioFilePath cfg.output_path id) = false ∧
      ∃ msg, cfg.dl id = .exc msg ∧
        processVideo cfg fs id = (⟨id, .acqFailed, 1, 0⟩, fs)) := by
  rcases download_cases cfg.dl id cfg.output_path fs with
    ⟨ha, heq⟩ | ⟨ha, created, hdl, heq⟩ | ⟨ha, msg, hdl, heq⟩
  · rcases transcribe_cases cfg.eng cfg.cudaAvailable (audioFilePath cfg.output_path id) id
        cfg.language_code cfg.output_path cfg.auto_detect_language cfg.gpu_id fs with
      ⟨ht, teq⟩ | ⟨ht, segments, heng, teq⟩ | ⟨ht, msg, heng, teq⟩
    · refine Or.inl ⟨ha, ht, ?_⟩
      simp [processVideo, heq, teq]
    · refine Or.inr (Or.inl ⟨ha, ht, segments, heng, ?_⟩)
      simp [processVideo, heq, teq]
    · refine Or.inr (Or.inr (Or.inl ⟨ha, ht, msg, heng, ?_⟩))
      simp [processVideo, heq, teq]
  · have hkeys := hw id created hdl
    have htshift : fsExists (created ++ fs) (transcriptFilePath cfg.output_path id) =
        fsExists fs (transcriptFilePath cfg.output_path id) := by
      rw [fsExists_append, fsExists_eq_of_keys created _ hkeys _
        (fun hcontra => audioFilePath_ne_transcriptFilePath cfg.output_path id id hcontra.symm),
        Bool.false_or]
    rcases transcribe_cases cfg.eng cfg.cudaAvailable (audioFilePath cfg.output_path id) id
        cfg.language_code cfg.output_path cfg.auto_detect_language cfg.gpu_id (created ++ fs) with
      ⟨ht, teq⟩ | ⟨ht, segments, heng, teq⟩ | ⟨ht, msg, heng, teq⟩
    · refine Or.inr (Or.inr (Or.inr (Or.inl ⟨ha, created, hdl, hkeys,
        Or.inl ⟨htshift ▸ ht, ?_⟩⟩)))
      simp [processVideo, heq, teq]
    · refine Or.inr (Or.inr (Or.inr (Or.inl ⟨ha, created, hdl, hkeys,
        Or.inr (Or.inl ⟨htshift ▸ ht, segments, heng, ?_⟩)⟩)))
      simp [processVideo, heq, teq]
    · refine Or.inr (Or.inr (Or.inr (Or.inl ⟨ha, created, hdl, hkeys,
        Or.inr (Or.inr ⟨htshift ▸ ht, msg, heng, ?_⟩)⟩)))
      simp [processVideo, heq, teq]
  · refine Or.inr (Or.inr (Or.inr (Or.inr ⟨ha, msg, hdl, ?_⟩)))
    simp [processVideo, heq]

/-- A file system is settled for an identifier (with respect to a fixed
configuration) when re-processing the identifier cannot change the disk:
either both artifacts exist, or the audio is absent and the downloader
raises for it, or the audio exists, the transcript is absent, and the
engine raises for its audio path. -/
def Settled (cfg : PipelineConfig) (fs : FS) (id : String) : Prop :=
  (fsExists fs (audioFilePath cfg.output_path id) = true ∧
    fsExists fs (transcriptFilePath cfg.output_path id) = true) ∨
  (fsExists fs (audioFilePath cfg.output_path id) = false ∧
    ∃ msg, cfg.dl id = .exc msg) ∨
  (fsExists fs (audioFilePath cfg.output_path id) = true ∧
    fsExists fs (transcriptFilePath cfg.output_path id) = false ∧
    ∃ msg, cfg.eng (deviceOf cfg.cudaAvailable cfg.gpu_id)
        (audioFilePath cfg.output_path id)
        (if cfg.auto_detect_language then none else cfg.language_code) = .exc msg)

/-- The trace record a loop iteration produces on a settled file system. -/
def settledRecord (cfg : PipelineConfig) (fs : FS) (id : String) : ItemRecord :=
  if fsExists fs (audioFilePath cfg.output_path id) then
    if fsExists fs (transcriptFilePath cfg.output_path id) then
      ⟨id, .done (transcriptFilePath cfg.output_path id), 0, 0⟩
    else ⟨id, .trFailed, 0, 1⟩
  else ⟨id, .acqFailed, 1, 0⟩

theorem processVideo_fs_suffix (cfg : PipelineConfig) (hw : WellBehavedDl cfg) (fs : FS)
    (id : String) : fs <:+ (processVideo cfg fs id).2 := by
  rcases processVideo_analysis cfg hw fs id with
    ⟨_, _, hpv⟩ | ⟨_, _, _, _, hpv⟩ | ⟨_, _, _, _, hpv⟩ |
    ⟨_, created, _, _, ⟨_, hpv⟩ | ⟨_, _, _, hpv⟩ | ⟨_, _, _, hpv⟩⟩ | ⟨_, _, _, hpv⟩
  · rw [hpv]
  · rw [hpv]; exact List.suffix_cons _ _
  · rw [hpv]
  · rw [hpv]; exact List.suffix_append created fs
  · rw [hpv]; exact List.IsSuffix.trans (List.suffix_append created fs) (List.suffix_cons _ _)
  · rw [hpv]; exact List.suffix_append created fs
  · rw [hpv]

theorem processVideo_settles (cfg : PipelineConfig) (hw : WellBehavedDl cfg) (fs : FS)
    (id : String) : Settled cfg (processVideo cfg fs id).2 id := by
  rcases processVideo_analysis cfg hw fs id with
    ⟨ha, ht, hpv⟩ | ⟨ha, ht, segments, heng, hpv⟩ | ⟨ha, ht, msg, heng, hpv⟩ |
    ⟨ha, created, hdl, hkeys, ⟨ht, hpv⟩ | ⟨ht, segments, heng, hpv⟩ | ⟨ht, msg, heng, hpv⟩⟩ |
    ⟨ha, msg, hdl, hpv⟩
  · rw [hpv]; exact Or.inl ⟨ha, ht⟩
  · rw [hpv]
    refine Or.inl ⟨fsExists_mono (List.suffix_cons _ _) ha, ?_⟩
    rw [fsExists_cons]
    simp
  · rw [hpv]; exact Or.inr (Or.inr ⟨ha, ht, msg, heng⟩)
  · rw [hpv]
    refine Or.inl ⟨?_, fsExists_mono (List.suffix_append created fs) ht⟩
    rw [fsExists_append, fsExists_self_of_keys created _ hkeys, Bool.true_or]
  · rw [hpv]
    refine Or.inl ⟨?_, ?_⟩
    · refine fsExists_mono (List.suffix_cons _ _) ?_
      rw [fsExists_append, fsExists_self_of_keys created _ hkeys, Bool.true_or]
    · rw [fsExists_cons]
      simp
  · rw [hpv]
    refine Or.inr (Or.inr ⟨?_, ?_, msg, heng⟩)
    · rw [fsExists_append, fsExists_self_of_keys created _ hkeys, Bool.true_or]
    · rw [fsExists_append, fsExists_eq_of_keys created _ hkeys _
        (fun hcontra => audioFilePath_ne_transcriptFilePath cfg.output_path id id hcontra.symm),
        Bool.false_or]
      exact ht
  · rw [hpv]; exact Or.inr (Or.inl ⟨ha, msg, hdl⟩)

theorem processVideo_settled_eq (cfg : PipelineConfig) (fs : FS) (id : String)
    (hs : Settled cfg fs id) :
    processVideo cfg fs id = (settledRecord cfg fs id, fs) := by
  rcases hs with ⟨ha, ht⟩ | ⟨ha, msg, hdl⟩ | ⟨ha, ht, msg, heng⟩
  · rw [settledRecord, if_pos ha, if_pos ht]
    simp [processVideo, download_hit cfg.dl id cfg.output_path fs ha,
      transcribe_hit cfg.eng cfg.cudaAvailable (audioFilePath cfg.output_path id) id
        cfg.language_code cfg.output_path cfg.auto_detect_language cfg.gpu_id fs ht]
  · rw [settledRecord, if_neg (by rw [ha]; exact Bool.false_ne_true)]
    simp [processVideo, download_miss_exc cfg.dl id cfg.output_path fs msg ha hdl]
  · rw [settledRecord, if_pos ha, if_neg (by rw [ht]; exact Bool.false_ne_true)]
    simp [processVideo, download_hit cfg.dl id cfg.output_path fs ha,
      transcribe_miss_exc cfg.eng cfg.cudaAvailable (audioFilePath cfg.output_path id) id
        cfg.language_code cfg.output_path cfg.auto_detect_language cfg.gpu_id fs msg ht heng]

theorem processVideo_preserves_audio_absence (cfg : PipelineConfig) (hw : WellBehavedDl cfg)
    (fs : FS) (x y : String) (msg : String) (hdlx : cfg.dl x = .exc msg)
    (hax : fsExists fs (audioFilePath cfg.output_path x) = false) :
    fsExists (processVideo cfg fs y).2 (audioFilePath cfg.output_path x) = false := by
  have hne_tr : ∀ z : String,
      (transcriptFilePath cfg.output_path z == audioFilePath cfg.output_path x) = false :=
    fun z => beq_eq_false_iff_ne.mpr
      (fun hcontra => audioFilePath_ne_transcriptFilePath cfg.output_path x z hcontra.symm)
  rcases processVideo_analysis cfg hw fs y with
    ⟨_, _, hpv⟩ | ⟨_, _, _, _, hpv⟩ | ⟨_, _, _, _, hpv⟩ |
    ⟨_, created, hdl, hkeys, ⟨_, hpv⟩ | ⟨_, _, _, hpv⟩ | ⟨_, _, _, hpv⟩⟩ | ⟨_, _, _, hpv⟩
  all_goals rw [hpv]
  · exact hax
  · rw [fsExists_cons, hne_tr, Bool.false_or]; exact hax
  · exact hax
  · rw [fsExists_append, fsExists_eq_of_keys created _ hkeys _
      (fun hcontra => by
        rw [audioFilePath_inj cfg.output_path x y hcontra, hdl] at hdlx
        exact DlOutcome.noConfusion hdlx), Bool.false_or]
    exact hax
  · rw [fsExists_cons, hne_tr, Bool.false_or, fsExists_append,
      fsExists_eq_of_keys created _ hkeys _
      (fun hcontra => by
        rw [audioFilePath_inj cfg.output_path x y hcontra, hdl] at hdlx
        exact DlOutcome.noConfusion hdlx), Bool.false_or]
    exact hax
  · rw [fsExists_append, fsExists_eq_of_keys created _ hkeys _
      (fun hcontra => by
        rw [audioFilePath_inj cfg.output_path x y hcontra, hdl] at hdlx
        exact DlOutcome.noConfusion hdlx), Bool.false_or]
    exact hax
  · exact hax

theorem processVideo_preserves_transcript_absence (cfg : PipelineConfig)
    (hw : WellBehavedDl cfg) (fs : FS) (x y : String) (msg : String)
    (hengx : cfg.eng (deviceOf cfg.cudaAvailable cfg.gpu_id)
      (audioFilePath cfg.output_path x)
      (if cfg.auto_detect_language then none else cfg.language_code) = .exc msg)
    (htx : fsExists fs (transcriptFilePath cfg.output_path x) = false) :
    fsExists (processVideo cfg fs y).2 (transcriptFilePath cfg.output_path x) = false := by
  have hcreated : ∀ created, created.map Prod.fst = [audioFilePath cfg.output_path y] →
      fsExists created (transcriptFilePath cfg.output_path x) = false :=
    fun created hkeys => fsExists_eq_of_keys created _ hkeys _
      (fun hcontra => audioFilePath_ne_transcriptFilePath cfg.output_path y x hcontra.symm)
  rcases processVideo_analysis cfg hw fs y with
    ⟨_, _, hpv⟩ | ⟨_, _, segments, heng, hpv⟩ | ⟨_, _, _, _, hpv⟩ |
    ⟨_, created, hdl, hkeys, ⟨_, hpv⟩ | ⟨_, segments, heng, hpv⟩ | ⟨_, _, _, hpv⟩⟩ |
    ⟨_, _, _, hpv⟩
  all_goals rw [hpv]
  · exact htx
  · rw [fsExists_cons, beq_eq_false_iff_ne.mpr (fun hcontra => by
      rw [transcriptFilePath_inj cfg.output_path y x hcontra, hengx] at heng
      exact EngineOutcome.noConfusion heng), Bool.false_or]
    exact htx
  · exact htx
  · rw [fsExists_append, hcreated created hkeys, Bool.false_or]; exact htx
  · rw [fsExists_cons, beq_eq_false_iff_ne.mpr (fun hcontra => by
      rw [transcriptFilePath_inj cfg.output_path y x hcontra, hengx] at heng
      exact EngineOutcome.noConfusion heng), Bool.false_or,
      fsExists_append, hcreated created hkeys, Bool.false_or]
    exact htx
  · rw [fsExists_append, hcreated created hkeys, Bool.false_or]; exact htx
  · exact htx

theorem processVideo_preserves_settled (cfg : PipelineConfig) (hw : WellBehavedDl cfg)
    (fs : FS) (x y : String) (hs : Settled cfg fs x) :
    Settled cfg (processVideo cfg fs y).2 x := by
  rcases hs with ⟨ha, ht⟩ | ⟨ha, msg, hdl⟩ | ⟨ha, ht, msg, heng⟩
  · exact Or.inl ⟨fsExists_mono (processVideo_fs_suffix cfg hw fs y) ha,
      fsExists_mono (processVideo_fs_suffix cfg hw fs y) ht⟩
  · exact Or.inr (Or.inl
      ⟨processVideo_preserves_audio_absence cfg hw fs x y msg hdl ha, msg, hdl⟩)
  · exact Or.inr (Or.inr ⟨fsExists_mono (processVideo_fs_suffix cfg hw fs y) ha,
      processVideo_preserves_transcript_absence cfg hw fs x y msg heng ht, msg, heng⟩)

theorem runBatch_fs_suffix (cfg : PipelineConfig) (hw : WellBehavedDl cfg)
    (ids : List String) : ∀ fs : FS, fs <:+ (runBatch cfg ids fs).fs := by
  induction ids with
  | nil => intro fs; exact List.suffix_refl fs
  | cons v rest ih =>
    intro fs
    rw [runBatch_cons]
    exact List.IsSuffix.trans (processVideo_fs_suffix cfg hw fs v)
      (ih (processVideo cfg fs v).2)

theorem runBatch_preserves_settled (cfg : PipelineConfig) (hw : WellBehavedDl cfg)
    (ids : List String) (x : String) :
    ∀ fs : FS, Settled cfg fs x → Settled cfg (runBatch cfg ids fs).fs x := by
  induction ids with
  | nil => intro fs hs; exact hs
  | cons v rest ih =>
    intro fs hs
    rw [runBatch_cons]
    exact ih (processVideo cfg fs v).2 (processVideo_preserves_settled cfg hw fs x v hs)

theorem runBatch_preserves_audio_absence (cfg : PipelineConfig) (hw : WellBehavedDl cfg)
    (ids : List String) (x msg : String) (hdlx : cfg.dl x = .exc msg) :
    ∀ fs : FS, fsExists fs (audioFilePath cfg.output_path x) = false →
      fsExists (runBatch cfg ids fs).fs (audioFilePath cfg.output_path x) = false := by
  induction ids with
  | nil => intro fs h; exact h
  | cons v rest ih =>
    intro fs h
    rw [runBatch_cons]
    exact ih (processVideo cfg fs v).2
      (processVideo_preserves_audio_absence cfg hw fs x v msg hdlx h)

theorem runBatch_preserves_transcript_absence (cfg : PipelineConfig) (hw : WellBehavedDl cfg)
    (ids : List String) (x msg : String)
    (hengx : cfg.eng (deviceOf cfg.cudaAvailable cfg.gpu_id)
      (audioFilePath cfg.output_path x)
      (if cfg.auto_detect_language then none else cfg.language_code) = .exc msg) :
    ∀ fs : FS, fsExists fs (transcriptFilePath cfg.output_path x) = false →
      fsExists (runBatch cfg ids fs).fs (transcriptFilePath cfg.output_path x) = false := by
  induction ids with
  | nil => intro fs h; exact h
  | cons v rest ih =>
    intro fs h
    rw [runBatch_cons]
    exact ih (processVideo cfg fs v).2
      (processVideo_preserves_transcript_absence cfg hw fs x v msg hengx h)

theorem runBatch_settles (cfg : PipelineConfig) (hw : WellBehavedDl cfg) (ids : List String) :
    ∀ fs : FS, ∀ x ∈ ids, Settled cfg (runBatch cfg ids fs).fs x := by
  induction ids with
  | nil => intro fs x hx; exact absurd hx (List.not_mem_nil x)
  | cons v rest ih =>
    intro fs x hx
    rcases List.mem_cons.mp hx with rfl | hx
    · rw [runBatch_cons]
      exact runBatch_preserves_settled cfg hw rest x (processVideo cfg fs x).2
        (processVideo_settles cfg hw fs x)
    · rw [runBatch_cons]
      exact ih (processVideo cfg fs v).2 x hx

theorem runBatch_on_settled (cfg : PipelineConfig) (ids : List String) :
    ∀ fs : FS, (∀ x ∈ ids, Settled cfg fs x) →
      (runBatch cfg ids fs).fs = fs ∧
      (runBatch cfg ids fs).trace = ids.map (settledRecord cfg fs) := by
  induction ids with
  | nil => intro fs _; exact ⟨rfl, rfl⟩
  | cons v rest ih =>
    intro fs hall
    have hv := processVideo_settled_eq cfg fs v (hall v (List.mem_cons_self v rest))
    have hrest := ih fs (fun x hx => hall x (List.mem_cons_of_mem v hx))
    rw [runBatch_cons, hv]
    exact ⟨hrest.1, by rw [List.map_cons]; exact congrArg _ hrest.2⟩

theorem doneIds_mk (fs : FS) (trace : List ItemRecord) (failed : List String) :
    doneIds ⟨fs, trace, failed⟩ =
      trace.filterMap (fun it =>
        match it.outcome with
        | .done _ => some it.videoId
        | _ => none) := rfl

theorem runBatch_done_iff (cfg : PipelineConfig) (hw : WellBehavedDl cfg) (ids : List String) :
    ∀ fs0 : FS,
      doneIds (runBatch cfg ids fs0) =
        ids.filter (fun x =>
          fsExists (runBatch cfg ids fs0).fs (audioFilePath cfg.output_path x) &&
          fsExists (runBatch cfg ids fs0).fs (transcriptFilePath cfg.output_path x)) := by
  induction ids with
  | nil => intro fs0; rfl
  | cons v rest ih =>
    intro fs0
    rcases processVideo_analysis cfg hw fs0 v with
      ⟨ha, ht, hpv⟩ | ⟨ha, ht, segments, heng, hpv⟩ | ⟨ha, ht, msg, heng, hpv⟩ |
      ⟨ha, created, hdl, hkeys, ⟨ht, hpv⟩ | ⟨ht, segments, heng, hpv⟩ | ⟨ht, msg, heng, hpv⟩⟩ |
      ⟨ha, msg, hdl, hpv⟩
    · -- D1: done, disk untouched
      rw [runBatch_cons, hpv]
      simp only [doneIds_mk, List.filterMap_cons]
      rw [List.filter_cons_of_pos (by
        rw [Bool.and_eq_true]
        exact ⟨fsExists_mono (runBatch_fs_suffix cfg hw rest fs0) ha,
          fsExists_mono (runBatch_fs_suffix cfg hw rest fs0) ht⟩)]
      exact congrArg _ (ih fs0)
    · -- D2: done, transcript written
      rw [runBatch_cons, hpv]
      simp only [doneIds_mk, List.filterMap_cons]
      rw [List.filter_cons_of_pos (by
        rw [Bool.and_eq_true]
        constructor
        · exact fsExists_mono (runBatch_fs_suffix cfg hw rest _)
            (fsExists_mono (List.suffix_cons _ _) ha)
        · refine fsExists_mono (runBatch_fs_suffix cfg hw rest _) ?_
          rw [fsExists_cons]
          simp)]
      exact congrArg _ (ih _)
    · -- D3: transcription failed, disk untouched
      rw [runBatch_cons, hpv]
      simp only [doneIds_mk, List.filterMap_cons]
      rw [List.filter_cons_of_neg (by
        rw [Bool.not_eq_true, Bool.and_eq_false_iff]
        exact Or.inr (runBatch_preserves_transcript_absence cfg hw rest v msg heng fs0 ht))]
      exact ih fs0
    · -- D4a: done, audio downloaded, transcript pre-existing
      rw [runBatch_cons, hpv]
      simp only [doneIds_mk, List.filterMap_cons]
      rw [List.filter_cons_of_pos (by
        rw [Bool.and_eq_true]
        constructor
        · refine fsExists_mono (runBatch_fs_suffix cfg hw rest _) ?_
          rw [fsExists_append, fsExists_self_of_keys created _ hkeys, Bool.true_or]
        · exact fsExists_mono (runBatch_fs_suffix cfg hw rest _)
            (fsExists_mono (List.suffix_append created fs0) ht))]
      exact congrArg _ (ih _)
    · -- D4b: done, audio downloaded, transcript written
      rw [runBatch_cons, hpv]
      simp only [doneIds_mk, List.filterMap_cons]
      rw [List.filter_cons_of_pos (by
        rw [Bool.and_eq_true]
        constructor
        · refine fsExists_mono (runBatch_fs_suffix cfg hw rest _) ?_
          refine fsExists_mono (List.suffix_cons _ _) ?_
          rw [fsExists_append, fsExists_self_of_keys created _ hkeys, Bool.true_or]
        · refine fsExists_mono (runBatch_fs_suffix cfg hw rest _) ?_
          rw [fsExists_cons]
          simp)]
      exact congrArg _ (ih _)
    · -- D4c: audio downloaded, transcription failed
      rw [runBatch_cons, hpv]
      simp only [doneIds_mk, List.filterMap_cons]
      rw [List.filter_cons_of_neg (by
        rw [Bool.not_eq_true, Bool.and_eq_false_iff]
        refine Or.inr (runBatch_preserves_transcript_absence cfg hw rest v msg heng _ ?_)
        rw [fsExists_append, fsExists_eq_of_keys created _ hkeys _
          (fun hc => audioFilePath_ne_transcriptFilePath cfg.output_path v v hc.symm),
          Bool.false_or]
        exact ht)]
      exact ih _
    · -- D5: acquisition failed, disk untouched
      rw [runBatch_cons, hpv]
      simp only [doneIds_mk, List.filterMap_cons]
      rw [List.filter_cons_of_neg (by
        rw [Bool.not_eq_true, Bool.and_eq_false_iff]
        exact Or.inl (runBatch_preserves_audio_absence cfg hw rest v msg hdl fs0 ha))]
      exact ih fs0

theorem settledRecord_videoId (cfg : PipelineConfig) (fs : FS) (x : String) :
    (settledRecord cfg fs x).videoId = x := by
  unfold settledRecord
  split
  · split <;> rfl
  · rfl

/-! ## Claim C3: orchestrator-level idempotence -/

/-- C3.  Orchestrator idempotence (for a download mechanism that, on
normal termination, materializes the requested deterministic artifact —
`WellBehavedDl`): re-running the loop on the same identifier list and
output directory, starting from the file system the first run left
behind, leaves the file system exactly unchanged, reports the same `done`
identifier list as the first run, and performs zero download and zero
engine invocations on every iteration whose identifier was `done` in the
first run. -/
theorem C3_orchestrator_idempotence (cfg : PipelineConfig) (hw : WellBehavedDl cfg)
    (ids : List String) (fs0 : FS) :
    (runBatch cfg ids (runBatch cfg ids fs0).fs).fs = (runBatch cfg ids fs0).fs ∧
    doneIds (runBatch cfg ids (runBatch cfg ids fs0).fs) = doneIds (runBatch cfg ids fs0) ∧
    ∀ it ∈ (runBatch cfg ids (runBatch cfg ids fs0).fs).trace,
      it.videoId ∈ doneIds (runBatch cfg ids fs0) →
      it.dlInvocations = 0 ∧ it.engInvocations = 0 := by
  have hsettled : ∀ x ∈ ids, Settled cfg (runBatch cfg ids fs0).fs x :=
    runBatch_settles cfg hw ids fs0
  have hrun2 := runBatch_on_settled cfg ids (runBatch cfg ids fs0).fs hsettled
  have hdone1 := runBatch_done_iff cfg hw ids fs0
  refine ⟨hrun2.1, ?_, ?_⟩
  · rw [runBatch_done_iff cfg hw ids (runBatch cfg ids fs0).fs, hrun2.1, hdone1]
  · intro it hit hdone
    rw [hrun2.2] at hit
    obtain ⟨x, hx, rfl⟩ := List.mem_map.mp hit
    rw [settledRecord_videoId, hdone1] at hdone
    have hp := (List.mem_filter.mp hdone).2
    rw [Bool.and_eq_true] at hp
    rw [settledRecord, if_pos hp.1, if_pos hp.2]
    exact ⟨rfl, rfl⟩

theorem exCfg_wellBehaved : WellBehavedDl exCfg := by
  intro video_id created hc
  by_cases hid : video_id = "id2"
  · simp [exCfg, exDl, hid] at hc
  · simp only [exCfg, exDl, if_neg hid] at hc
    cases hc
    rfl

/-- Witness for C3 at concrete inputs: re-running the 3-item example
batch (in which `id2` keeps failing) from the first run's disk state
changes nothing, reports the same `done` list, and performs no download
or engine work for `id1` and `id3`. -/
theorem C3_orchestrator_idempotence_witness :
    (runBatch exCfg ["id1", "id2", "id3"]
        (runBatch exCfg ["id1", "id2", "id3"] []).fs).fs =
      (runBatch exCfg ["id1", "id2", "id3"] []).fs ∧
    doneIds (runBatch exCfg ["id1", "id2", "id3"]
        (runBatch exCfg ["id1", "id2", "id3"] []).fs) =
      doneIds (runBatch exCfg ["id1", "id2", "id3"] []) ∧
    ∀ it ∈ (runBatch exCfg ["id1", "id2", "id3"]
        (runBatch exCfg ["id1", "id2", "id3"] []).fs).trace,
      it.videoId ∈ doneIds (runBatch exCfg ["id1", "id2", "id3"] []) →
      it.dlInvocations = 0 ∧ it.engInvocations = 0 :=
  C3_orchestrator_idempotence exCfg exCfg_wellBehaved ["id1", "id2", "id3"] []
